import Mathlib

/-!
# Verification of the credit ledger / cache-aside accounting engine

Shallow embedding of the credit-accounting subsystem of the repository:

* `Billing` embeds `src/services/billing.js` (module-level `creditWalletCache`
  and `monthlyAllowanceCache` maps, `chargeCredits`, `addCredits`,
  `chargeIncludedCredits`, `flushUserToDatabase`, `batchFlushToDatabase`,
  `resetMonthlyAllowances`, and the stale-entry sweep from
  `initializeBillingTasks`).
* `CM` embeds the `CreditManager` class of `src/routes/billing.js`
  (`getBalance`, `chargeCredits`, `addCredits`, `scheduleCreditUpdate`,
  `processCreditUpdates`).

JavaScript `Map`s are embedded as association lists; the relational store is a
record of association lists keyed the way the SQL statements key their rows.
Timestamps (`Date.now()`) and the current calendar period are passed in
explicitly through a `Clock`.  The two sources of nondeterminism on the charge
path — `Math.random() < PROBABILISTIC_FLUSH_CHANCE` and success or failure of a
durable-store write — are passed in as an `Oracle`.  A thrown JavaScript error
is embedded as `Except.error` carrying the error message; since the caches are
shared mutable state, every operation returns the post-state even when it
throws.
-/

/-- Association-list lookup: first entry whose key matches. -/
def alookup {κ α : Type} [DecidableEq κ] (k : κ) : List (κ × α) → Option α
  | [] => none
  | (k', v) :: rest => if k = k' then some v else alookup k rest

/-- Association-list write: replace the first entry with the key in place, or
append a fresh entry (JavaScript `Map.prototype.set`). -/
def aset {κ α : Type} [DecidableEq κ] (k : κ) (v : α) : List (κ × α) → List (κ × α)
  | [] => [(k, v)]
  | (k', v') :: rest => if k = k' then (k, v) :: rest else (k', v') :: aset k v rest

/-- Association-list update: replace the first entry with the key in place and
do nothing when the key is absent (SQL `UPDATE` touching zero rows). -/
def aupdate {κ α : Type} [DecidableEq κ] (k : κ) (v : α) : List (κ × α) → List (κ × α)
  | [] => []
  | (k', v') :: rest => if k = k' then (k, v) :: rest else (k', v') :: aupdate k v rest

namespace Billing

/-- An entry of `creditWalletCache`: `{ balance, lastSync, dirty }`. -/
structure CacheEntry where
  balance : Int
  lastSync : Int
  dirty : Bool
deriving Repr, DecidableEq

/-- An entry of `monthlyAllowanceCache`: `{ used, limit, subscription }`. -/
structure AllowanceEntry where
  used : Int
  limit : Int
  subscription : Option String
deriving Repr, DecidableEq

/-- A row of the `api_usage_monthly` table (the columns this subsystem touches). -/
structure UsageRow where
  allowance_used : Int
  monthly_allowance : Int
  subscription_id : Option String
  credits_from_subscription : Int
deriving Repr, DecidableEq

/-- A row of the `subscriptions` table (the columns this subsystem reads). -/
structure SubscriptionRow where
  id : String
  user_id : String
  status : String
  plan_type : String
  monthly_credit_allowance : Int
deriving Repr, DecidableEq

/-- The durable relational store, keyed the way the SQL statements key rows:
`users` by id (the `credit_balance` column), `api_usage_monthly` by
`(user_id, usage_year, usage_month)`. -/
structure DB where
  users : List (String × Int)
  apiUsageMonthly : List ((String × Nat × Nat) × UsageRow)
  subscriptions : List SubscriptionRow
deriving Repr, DecidableEq

/-- The module-level mutable state of `services/billing.js`. -/
structure BillingState where
  creditWalletCache : List (String × CacheEntry)
  monthlyAllowanceCache : List (String × AllowanceEntry)
  db : DB
deriving Repr, DecidableEq

/-- `Date.now()` and the current calendar year/month that the JavaScript code
derives from `new Date()`. -/
structure Clock where
  nowMs : Int
  year : Nat
  month : Nat
deriving Repr, DecidableEq

/-- Nondeterministic inputs of one operation: whether the 5% probabilistic
draw (`Math.random() < PROBABILISTIC_FLUSH_CHANCE`) fires, whether the
allowance upsert transaction succeeds, and whether a wallet flush write
succeeds.  Durable-store write failure is modelled as failing before any row
is applied. -/
structure Oracle where
  randFlush : Bool
  allowanceTxOk : Bool
  flushOk : Bool
deriving Repr, DecidableEq

/-- `CACHE_FLUSH_INTERVAL` is scheduling plumbing; the constants the charge
path reads: -/
def CRITICAL_BALANCE_THRESHOLD : Int := 100

/-- `CREDIT_COSTS` lookup table. -/
def CREDIT_COSTS : String → Option Int
  | "10min" => some 1
  | "1hour" => some 2
  | "1day" => some 3
  | _ => none

/-- `PLAN_CONFIGS[planType]?.monthlyAllowance || 0`. -/
def planMonthlyAllowance : String → Int
  | "premium" => 3000
  | "premium_plus" => 15000
  | _ => 0

/-- The `${userId}-${yearMonth}` cache key, with the zero-padded month. -/
def ymString (year month : Nat) : String :=
  toString year ++ "-" ++ (if month < 10 then "0" ++ toString month else toString month)

def allowanceKey (userId : String) (clk : Clock) : String :=
  userId ++ "-" ++ ymString clk.year clk.month

/-- `initializeUserCache`: load the balance row and insert a clean entry;
throws `'User not found'` when the row is absent. -/
def initializeUserCache (userId : String) (now : Int) (s : BillingState) :
    Except String CacheEntry × BillingState :=
  match alookup userId s.db.users with
  | none => (Except.error "User not found", s)
  | some bal =>
      let entry : CacheEntry := { balance := bal, lastSync := now, dirty := false }
      (Except.ok entry,
       { s with creditWalletCache := aset userId entry s.creditWalletCache })

/-- `getCreditBalance`: cache-first read of the wallet balance. -/
def getCreditBalance (userId : String) (now : Int) (s : BillingState) :
    Except String Int × BillingState :=
  match alookup userId s.creditWalletCache with
  | some cached => (Except.ok cached.balance, s)
  | none =>
      match initializeUserCache userId now s with
      | (Except.error e, s') => (Except.error e, s')
      | (Except.ok cached, s') => (Except.ok cached.balance, s')

/-- The first active subscription row for a user
(`SELECT * FROM subscriptions WHERE user_id = ? AND status = 'active'`). -/
def findActiveSubscription (userId : String) (db : DB) : Option SubscriptionRow :=
  db.subscriptions.find? (fun r => r.user_id = userId && r.status = "active")

/-- `getMonthlyAllowance`: cache-first read of the allowance entry; on a miss,
derive it from the usage row and the active subscription and cache it. -/
def getMonthlyAllowance (userId : String) (clk : Clock) (s : BillingState) :
    AllowanceEntry × BillingState :=
  let cacheKey := allowanceKey userId clk
  match alookup cacheKey s.monthlyAllowanceCache with
  | some cached => (cached, s)
  | none =>
      let usage := alookup (userId, clk.year, clk.month) s.db.apiUsageMonthly
      let subscription := findActiveSubscription userId s.db
      let planType := (subscription.map (·.plan_type)).getD "free"
      let monthlyLimit := planMonthlyAllowance planType
      let cached : AllowanceEntry :=
        { used := (usage.map (·.allowance_used)).getD 0
          limit := monthlyLimit
          subscription := subscription.map (·.id) }
      (cached,
       { s with monthlyAllowanceCache := aset cacheKey cached s.monthlyAllowanceCache })

/-- The `INSERT ... ON DUPLICATE KEY UPDATE` of `chargeIncludedCredits`:
a fresh row records the charged cost and the cached limit; an existing row has
`allowance_used` and `credits_from_subscription` incremented (its
`monthly_allowance` is untouched). -/
def usageUpsert (userId : String) (clk : Clock) (cost : Int) (info : AllowanceEntry)
    (db : DB) : DB :=
  let key := (userId, clk.year, clk.month)
  match alookup key db.apiUsageMonthly with
  | some row =>
      let row' := { row with
                    allowance_used := row.allowance_used + cost,
                    credits_from_subscription := row.credits_from_subscription + cost }
      { db with apiUsageMonthly := aset key row' db.apiUsageMonthly }
  | none =>
      let row' : UsageRow :=
        { allowance_used := cost,
          monthly_allowance := info.limit,
          subscription_id := info.subscription,
          credits_from_subscription := cost }
      { db with apiUsageMonthly := aset key row' db.apiUsageMonthly }

/-- `chargeIncludedCredits`: consume from the monthly allowance if possible.
Returns `false` without mutation when there is no allowance or not enough of
it; on a failed durable transaction the rollback leaves both the store and the
cache unchanged and `false` is returned. -/
def chargeIncludedCredits (userId : String) (cost : Int) (clk : Clock) (o : Oracle)
    (s : BillingState) : Bool × BillingState :=
  let (allowanceInfo, s1) := getMonthlyAllowance userId clk s
  if allowanceInfo.limit = 0 || allowanceInfo.used + cost > allowanceInfo.limit then
    (false, s1)
  else if o.allowanceTxOk then
    let db' := usageUpsert userId clk cost allowanceInfo s1.db
    let cacheKey := allowanceKey userId clk
    let newInfo := { allowanceInfo with used := allowanceInfo.used + cost }
    (true, { s1 with
              db := db'
              monthlyAllowanceCache := aset cacheKey newInfo s1.monthlyAllowanceCache })
  else
    (false, s1)

/-- `flushUserToDatabase`: persist a dirty entry with an absolute
`UPDATE users SET credit_balance = ?`; clear `dirty` only on success; rethrow
the store error on failure. -/
def flushUserToDatabase (userId : String) (now : Int) (o : Oracle) (s : BillingState) :
    Except String Unit × BillingState :=
  match alookup userId s.creditWalletCache with
  | none => (Except.ok (), s)
  | some cached =>
      if !cached.dirty then (Except.ok (), s)
      else if o.flushOk then
        (Except.ok (),
         { s with
            db := { s.db with users := aupdate userId cached.balance s.db.users }
            creditWalletCache :=
              aset userId { cached with dirty := false, lastSync := now }
                s.creditWalletCache })
      else (Except.error "Failed to flush user balance to database", s)

/-- The result object of a successful `chargeCredits`:
`{ success: true, source, cost }`. -/
structure ChargeResult where
  source : String
  cost : Int
deriving Repr, DecidableEq

/-- `chargeCredits`: allowance first, then the wallet with an affordability
pre-check, then the critical-threshold / forced / probabilistic flush
triggers. -/
def chargeCredits (userId : String) (timeTier : String) (forceWriteThrough : Bool)
    (clk : Clock) (o : Oracle) (s : BillingState) :
    Except String ChargeResult × BillingState :=
  match CREDIT_COSTS timeTier with
  | none => (Except.error ("Invalid time tier: " ++ timeTier), s)
  | some cost =>
    -- the JavaScript falsy test `if (!cost)` also rejects a zero cost
    if cost = 0 then (Except.error ("Invalid time tier: " ++ timeTier), s)
    else
      match chargeIncludedCredits userId cost clk o s with
      | (true, s1) => (Except.ok { source := "monthly_allowance", cost := cost }, s1)
      | (false, s1) =>
        let hydrated : Except String CacheEntry × BillingState :=
          match alookup userId s1.creditWalletCache with
          | some cached => (Except.ok cached, s1)
          | none => initializeUserCache userId clk.nowMs s1
        match hydrated with
        | (Except.error e, s2) => (Except.error e, s2)
        | (Except.ok cached, s2) =>
          if cached.balance < cost then (Except.error "Insufficient credits", s2)
          else
            let cached' : CacheEntry :=
              { cached with balance := cached.balance - cost, dirty := true,
                            lastSync := clk.nowMs }
            let s3 := { s2 with
                         creditWalletCache := aset userId cached' s2.creditWalletCache }
            let step1 : Except String Unit × BillingState :=
              if cached'.balance < CRITICAL_BALANCE_THRESHOLD || forceWriteThrough then
                flushUserToDatabase userId clk.nowMs o s3
              else (Except.ok (), s3)
            match step1 with
            | (Except.error e, s4) => (Except.error e, s4)
            | (Except.ok _, s4) =>
              let step2 : Except String Unit × BillingState :=
                if o.randFlush then flushUserToDatabase userId clk.nowMs o s4
                else (Except.ok (), s4)
              match step2 with
              | (Except.error e, s5) => (Except.error e, s5)
              | (Except.ok _, s5) =>
                (Except.ok { source := "topup_credits", cost := cost }, s5)

/-- `addCredits`: unconditionally add to the cached balance, mark dirty, and
write through immediately. -/
def addCredits (userId : String) (amount : Int) (now : Int) (o : Oracle)
    (s : BillingState) : Except String Int × BillingState :=
  let hydrated : Except String CacheEntry × BillingState :=
    match alookup userId s.creditWalletCache with
    | some cached => (Except.ok cached, s)
    | none => initializeUserCache userId now s
  match hydrated with
  | (Except.error e, s') => (Except.error e, s')
  | (Except.ok cached, s') =>
    let cached' : CacheEntry :=
      { cached with balance := cached.balance + amount, dirty := true, lastSync := now }
    let s'' := { s' with creditWalletCache := aset userId cached' s'.creditWalletCache }
    match flushUserToDatabase userId now o s'' with
    | (Except.error e, s3) => (Except.error e, s3)
    | (Except.ok _, s3) => (Except.ok cached'.balance, s3)

/-- `batchFlushToDatabase`: up to 50 dirty entries persisted in one
transaction; dirty flags cleared only when the transaction succeeds. -/
def batchFlushToDatabase (now : Int) (o : Oracle) (s : BillingState) :
    Except String Unit × BillingState :=
  let dirtyEntries := (s.creditWalletCache.filter (fun p => p.2.dirty)).take 50
  if dirtyEntries.isEmpty then (Except.ok (), s)
  else if o.flushOk then
    (Except.ok (),
     { s with
        db := { s.db with
                 users := dirtyEntries.foldl
                   (fun acc p => aupdate p.1 p.2.balance acc) s.db.users }
        creditWalletCache := dirtyEntries.foldl
          (fun acc p => aset p.1 { p.2 with dirty := false, lastSync := now } acc)
          s.creditWalletCache })
  else (Except.error "Failed to batch flush to database", s)

/-- The loop body of `resetMonthlyAllowances` for one active subscription: the
`INSERT ... ON DUPLICATE KEY UPDATE` that creates a fresh usage row with
`allowance_used = 0` or, for an existing row, overwrites `monthly_allowance`
only. -/
def resetPeriod (userId : String) (clk : Clock) (newLimit : Int) (db : DB) : DB :=
  let key := (userId, clk.year, clk.month)
  match alookup key db.apiUsageMonthly with
  | some row =>
      let row' := { row with monthly_allowance := newLimit }
      { db with apiUsageMonthly := aset key row' db.apiUsageMonthly }
  | none =>
      let row' : UsageRow :=
        { allowance_used := 0,
          monthly_allowance := newLimit,
          subscription_id := none,
          credits_from_subscription := 0 }
      { db with apiUsageMonthly := aset key row' db.apiUsageMonthly }

/-- `resetMonthlyAllowances`: run the upsert for every active subscription and
clear the allowance cache. -/
def resetMonthlyAllowances (clk : Clock) (s : BillingState) : BillingState :=
  let subs := s.db.subscriptions.filter (fun r => r.status = "active")
  { s with
     db := subs.foldl
       (fun db sub => resetPeriod sub.user_id clk sub.monthly_credit_allowance db) s.db
     monthlyAllowanceCache := [] }

/-- The stale-entry sweep from `initializeBillingTasks`: drop entries whose
`lastSync` predates `now - 30 minutes` and that are not dirty. -/
def evictStale (now : Int) (cache : List (String × CacheEntry)) :
    List (String × CacheEntry) :=
  let oldThreshold := now - (30 * 60 * 1000)
  cache.filter (fun p => !(p.2.lastSync < oldThreshold && !p.2.dirty))

end Billing

namespace CM

/-- An entry of the CreditManager wallet cache (same shape as
`Billing.CacheEntry`). -/
structure WalletEntry where
  balance : Int
  lastSync : Int
  dirty : Bool
deriving Repr, DecidableEq

/-- A `creditUpdateQueue` entry: `{ deltaAmount, lastUpdate }`. -/
structure QueueEntry where
  deltaAmount : Int
  lastUpdate : Int
deriving Repr, DecidableEq

/-- The CreditManager state relevant to wallet accounting: the
`creditWalletCache`, the `creditUpdateQueue`, and the `users.credit_balance`
column of the durable store. -/
structure CMState where
  creditWalletCache : List (String × WalletEntry)
  creditUpdateQueue : List (String × QueueEntry)
  dbUsers : List (String × Int)
deriving Repr, DecidableEq

/-- The `balance_${userId}` cache key. -/
def balanceKey (userId : String) : String := "balance_" ++ userId

/-- `loadBalanceFromDB`: `rows.length > 0 ? (rows[0].credit_balance || 0) : 0`. -/
def loadBalanceFromDB (userId : String) (s : CMState) : Int :=
  (alookup userId s.dbUsers).getD 0

/-- `getBalance`: cache-first; on a miss, hydrate a clean entry from the
store. -/
def getBalance (userId : String) (now : Int) (s : CMState) : Int × CMState :=
  match alookup (balanceKey userId) s.creditWalletCache with
  | some cached => (cached.balance, s)
  | none =>
      let balance := loadBalanceFromDB userId s
      let entry : WalletEntry := { balance := balance, lastSync := now, dirty := false }
      (balance,
       { s with creditWalletCache := aset (balanceKey userId) entry s.creditWalletCache })

/-- `scheduleCreditUpdate`: accumulate the delta onto the queued entry. -/
def scheduleCreditUpdate (userId : String) (deltaAmount : Int) (now : Int)
    (s : CMState) : CMState :=
  let existing := (alookup userId s.creditUpdateQueue).getD
    { deltaAmount := 0, lastUpdate := now }
  let entry : QueueEntry :=
    { deltaAmount := existing.deltaAmount + deltaAmount, lastUpdate := now }
  { s with creditUpdateQueue := aset userId entry s.creditUpdateQueue }

/-- `CreditManager.chargeCredits`: validate, affordability pre-check, cache
write, queue the negative delta. -/
def chargeCredits (userId : String) (amount : Int) (now : Int) (s : CMState) :
    Except String Int × CMState :=
  if amount ≤ 0 then (Except.error "Invalid credit amount", s)
  else
    let (currentBalance, s1) := getBalance userId now s
    if currentBalance < amount then (Except.error "INSUFFICIENT_CREDITS", s1)
    else
      let newBalance := currentBalance - amount
      let entry : WalletEntry := { balance := newBalance, lastSync := now, dirty := true }
      let s2 := { s1 with
                  creditWalletCache := aset (balanceKey userId) entry s1.creditWalletCache }
      (Except.ok newBalance, scheduleCreditUpdate userId (-amount) now s2)

/-- `CreditManager.addCredits`: validate, cache write, queue the positive
delta. -/
def addCredits (userId : String) (amount : Int) (now : Int) (s : CMState) :
    Except String Int × CMState :=
  if amount ≤ 0 then (Except.error "Invalid credit amount", s)
  else
    let (currentBalance, s1) := getBalance userId now s
    let newBalance := currentBalance + amount
    let entry : WalletEntry := { balance := newBalance, lastSync := now, dirty := true }
    let s2 := { s1 with
                creditWalletCache := aset (balanceKey userId) entry s1.creditWalletCache }
    (Except.ok newBalance, scheduleCreditUpdate userId amount now s2)

/-- One queued update applied inside the batch transaction:
`UPDATE users SET credit_balance = credit_balance + ?` followed by clearing
the dirty flag of the cached entry when present. -/
def applyQueuedUpdate (now : Int) (s : CMState) (upd : String × QueueEntry) : CMState :=
  let userId := upd.1
  let dbUsers' :=
    match alookup userId s.dbUsers with
    | some b => aupdate userId (b + upd.2.deltaAmount) s.dbUsers
    | none => s.dbUsers
  let cache' :=
    match alookup (balanceKey userId) s.creditWalletCache with
    | some cached =>
        aset (balanceKey userId) { cached with dirty := false, lastSync := now }
          s.creditWalletCache
    | none => s.creditWalletCache
  { s with dbUsers := dbUsers', creditWalletCache := cache' }

/-- `processCreditUpdates`: snapshot and clear the queue; on a successful
transaction apply every queued delta and clear dirty flags; on failure
(modelled as failing before the first row is applied) roll back and re-queue
every snapshot entry. -/
def processCreditUpdates (txOk : Bool) (now : Int) (s : CMState) :
    Except String Unit × CMState :=
  if s.creditUpdateQueue.isEmpty then (Except.ok (), s)
  else
    let updates := s.creditUpdateQueue
    let s1 := { s with creditUpdateQueue := [] }
    if txOk then
      (Except.ok (), updates.foldl (applyQueuedUpdate now) s1)
    else
      (Except.error "db failure",
       updates.foldl (fun acc upd => scheduleCreditUpdate upd.1 upd.2.deltaAmount now acc) s1)

end CM

namespace Billing

/-- One wallet operation of a test sequence: a charge (with its tier, the
`forceWriteThrough` flag and the oracle draws for that call) or an addition. -/
inductive WalletOp
  | charge (timeTier : String) (force : Bool) (o : Oracle)
  | add (amount : Int) (o : Oracle)
deriving Repr, DecidableEq

/-- The value a successful operation returns. -/
inductive OpOutcome
  | charged (r : ChargeResult)
  | added (newBalance : Int)
deriving Repr, DecidableEq

/-- Apply one operation to the state. -/
def applyOp (userId : String) (clk : Clock) (s : BillingState) :
    WalletOp → Except String OpOutcome × BillingState
  | WalletOp.charge tier force o =>
      match chargeCredits userId tier force clk o s with
      | (Except.ok r, s') => (Except.ok (OpOutcome.charged r), s')
      | (Except.error e, s') => (Except.error e, s')
  | WalletOp.add amount o =>
      match addCredits userId amount clk.nowMs o s with
      | (Except.ok b, s') => (Except.ok (OpOutcome.added b), s')
      | (Except.error e, s') => (Except.error e, s')

/-- Run a sequence of operations, collecting each outcome (a failed operation
does not stop the sequence: each call is an independent request). -/
def runOps (userId : String) (clk : Clock) :
    List WalletOp → BillingState → List (Except String OpOutcome) × BillingState
  | [], s => ([], s)
  | op :: rest, s =>
      let (r, s') := applyOp userId clk s op
      let (rs, s'') := runOps userId clk rest s'
      (r :: rs, s'')

/-- Net effect on the cached wallet balance that the executed operations
account for: each add contributes its amount, each successful charge drawn
from the wallet contributes minus its cost, a charge served by the monthly
allowance contributes nothing. -/
def walletDelta : List (WalletOp × Except String OpOutcome) → Int
  | [] => 0
  | (WalletOp.add a _, Except.ok _) :: rest => a + walletDelta rest
  | (WalletOp.charge _ _ _, Except.ok (OpOutcome.charged r)) :: rest =>
      (if r.source = "topup_credits" then -r.cost else 0) + walletDelta rest
  | _ :: rest => walletDelta rest

/-- Net effect the specification formula `initialBalance - Σcharges + Σadds`
predicts: every successful charge contributes minus its cost, whatever its
source. -/
def specDelta : List (WalletOp × Except String OpOutcome) → Int
  | [] => 0
  | (WalletOp.add a _, Except.ok _) :: rest => a + specDelta rest
  | (WalletOp.charge _ _ _, Except.ok (OpOutcome.charged r)) :: rest =>
      -r.cost + specDelta rest
  | _ :: rest => specDelta rest

/-- `true` iff the operation completed without throwing. -/
def opOk : Except String OpOutcome → Bool
  | Except.ok _ => true
  | Except.error _ => false

end Billing

namespace CM

/-- Number of queue entries keyed by `u`. -/
def keysCount (u : String) (l : List (String × QueueEntry)) : Nat :=
  (l.map Prod.fst).count u

/-- The queued net delta for a user (0 when nothing is queued). -/
def qDelta (u : String) (s : CMState) : Int :=
  ((alookup u s.creditUpdateQueue).map (·.deltaAmount)).getD 0

/-- The persisted balance (`loadBalanceFromDB` semantics: 0 when the row is
absent). -/
def dbBal (u : String) (s : CMState) : Int :=
  (alookup u s.dbUsers).getD 0

/-- The balance a read observes: the cached balance, or the persisted balance
on a cache miss. -/
def cachedBal (u : String) (s : CMState) : Int :=
  ((alookup (balanceKey u) s.creditWalletCache).map (·.balance)).getD (dbBal u s)

/-- The write-back synchronisation invariant for one user: the user has a
durable row, at most one queue entry, and the queued net delta is exactly the
cached-minus-persisted difference. -/
def Inv (u : String) (s : CMState) : Prop :=
  (alookup u s.dbUsers).isSome = true ∧
  keysCount u s.creditUpdateQueue ≤ 1 ∧
  qDelta u s = cachedBal u s - dbBal u s

instance (u : String) (s : CMState) : Decidable (Inv u s) := by
  unfold Inv; infer_instance

end CM

/-- The state after the in-place cache write that `CreditManager.chargeCredits`
and `CreditManager.addCredits` perform before queuing their delta. -/
def cmWrite (w : String) (bal now : Int) (s : CM.CMState) : CM.CMState :=
  { s with
     creditWalletCache :=
       aset (CM.balanceKey w) { balance := bal, lastSync := now, dirty := true }
         s.creditWalletCache }

section AssocLemmas

variable {κ α : Type} [DecidableEq κ]

theorem alookup_aset_self (k : κ) (v : α) (l : List (κ × α)) :
    alookup k (aset k v l) = some v := by
  induction l with
  | nil => simp [aset, alookup]
  | cons p rest ih =>
      obtain ⟨k', v'⟩ := p
      by_cases h : k = k'
      · simp [aset, h, alookup]
      · simp [aset, h, alookup, ih]

theorem alookup_aset_ne {k k' : κ} (h : k ≠ k') (v : α) (l : List (κ × α)) :
    alookup k (aset k' v l) = alookup k l := by
  induction l with
  | nil => simp [aset, alookup, h]
  | cons p rest ih =>
      obtain ⟨k'', v''⟩ := p
      by_cases h2 : k' = k''
      · subst h2
        simp [aset, alookup, h]
      · by_cases h3 : k = k''
        · simp [aset, alookup, h2, h3]
        · simp [aset, alookup, h2, h3, ih]

theorem aset_aset (k : κ) (v v' : α) (l : List (κ × α)) :
    aset k v' (aset k v l) = aset k v' l := by
  induction l with
  | nil => simp [aset]
  | cons p rest ih =>
      obtain ⟨k'', v''⟩ := p
      by_cases h : k = k''
      · simp [aset, h]
      · simp [aset, h, ih]

theorem mem_aset {x : κ × α} {k : κ} {v : α} {l : List (κ × α)}
    (hx : x ∈ aset k v l) : x = (k, v) ∨ x ∈ l := by
  induction l with
  | nil => simpa [aset] using hx
  | cons p rest ih =>
      obtain ⟨k'', v''⟩ := p
      by_cases h : k = k''
      · simp only [aset, if_pos h, List.mem_cons] at hx
        rcases hx with h1 | h2
        · exact Or.inl h1
        · exact Or.inr (List.mem_cons_of_mem _ h2)
      · simp only [aset, if_neg h, List.mem_cons] at hx
        rcases hx with h1 | h2
        · exact Or.inr (h1 ▸ List.mem_cons_self _ _)
        · rcases ih h2 with h3 | h4
          · exact Or.inl h3
          · exact Or.inr (List.mem_cons_of_mem _ h4)

theorem alookup_aupdate_self {k : κ} {l : List (κ × α)} {w : α}
    (hk : alookup k l = some w) (v : α) : alookup k (aupdate k v l) = some v := by
  induction l with
  | nil => simp [alookup] at hk
  | cons p rest ih =>
      obtain ⟨k'', v''⟩ := p
      by_cases h : k = k''
      · simp [aupdate, alookup, h]
      · simp only [alookup, if_neg h] at hk
        simp [aupdate, alookup, h, ih hk]

theorem alookup_aupdate_ne {k k' : κ} (h : k ≠ k') (v : α) (l : List (κ × α)) :
    alookup k (aupdate k' v l) = alookup k l := by
  induction l with
  | nil => simp [aupdate]
  | cons p rest ih =>
      obtain ⟨k'', v''⟩ := p
      by_cases h2 : k' = k''
      · subst h2
        simp [aupdate, alookup, h]
      · by_cases h3 : k = k''
        · simp [aupdate, alookup, h2, h3]
        · simp [aupdate, alookup, h2, h3, ih]

end AssocLemmas

/-- C9: the stale-entry cleanup sweep removes a Ledger Cache entry only when
its `lastSync` predates now minus the staleness threshold AND `dirty = false`;
an entry with `dirty = true` is never evicted, no matter how old its
`lastSync` is. -/
theorem evictStale_only_clean_stale (now : Int)
    (cache : List (String × Billing.CacheEntry)) (p : String × Billing.CacheEntry)
    (hp : p ∈ cache) :
    (p.2.dirty = true → p ∈ Billing.evictStale now cache) ∧
    (p ∉ Billing.evictStale now cache ↔
      (p.2.lastSync < now - 30 * 60 * 1000 ∧ p.2.dirty = false)) := by
  have hiff : ∀ q : String × Billing.CacheEntry,
      (!(decide (q.2.lastSync < now - 30 * 60 * 1000) && !q.2.dirty)) = true ↔
        ¬(q.2.lastSync < now - 30 * 60 * 1000 ∧ q.2.dirty = false) := by
    intro q
    cases hq : q.2.dirty <;> by_cases hl : q.2.lastSync < now - 30 * 60 * 1000 <;>
      simp [hq, hl]
  unfold Billing.evictStale
  constructor
  · intro hd
    refine List.mem_filter.mpr ⟨hp, ?_⟩
    simp [hd]
  · rw [List.mem_filter]
    simp only [hp, true_and]
    constructor
    · intro hnot
      by_contra hcon
      exact hnot ((hiff p).mpr hcon)
    · intro hcl hmem
      exact (hiff p).mp hmem hcl

/-- C9 witness: a dirty entry far past the threshold survives the sweep, and
an old clean entry is evicted. -/
theorem evictStale_only_clean_stale_witness :
    ("a", ({ balance := 1, lastSync := 0, dirty := true } : Billing.CacheEntry)) ∈
      Billing.evictStale 10000000
        [("a", { balance := 1, lastSync := 0, dirty := true }),
         ("b", { balance := 1, lastSync := 0, dirty := false })] ∧
    ("b", ({ balance := 1, lastSync := 0, dirty := false } : Billing.CacheEntry)) ∉
      Billing.evictStale 10000000
        [("a", { balance := 1, lastSync := 0, dirty := true }),
         ("b", { balance := 1, lastSync := 0, dirty := false })] :=
  ⟨(evictStale_only_clean_stale 10000000
      [("a", { balance := 1, lastSync := 0, dirty := true }),
       ("b", { balance := 1, lastSync := 0, dirty := false })]
      ("a", { balance := 1, lastSync := 0, dirty := true }) (by decide)).1 rfl,
   (evictStale_only_clean_stale 10000000
      [("a", { balance := 1, lastSync := 0, dirty := true }),
       ("b", { balance := 1, lastSync := 0, dirty := false })]
      ("b", { balance := 1, lastSync := 0, dirty := false }) (by decide)).2.mpr
     (by decide)⟩

/-- C7 counterexample: with an existing usage row (`allowance_used = 5`) for
the period, one call (and equally two calls) of `resetPeriod` leaves
`used = 5 ≠ 0`: the `ON DUPLICATE KEY UPDATE` branch only overwrites
`monthly_allowance`, so the claimed postcondition `used == 0` fails. -/
theorem resetPeriod_existing_row_counterexample :
    alookup ("u", 2025, 10)
        (Billing.resetPeriod "u" { nowMs := 0, year := 2025, month := 10 } 3000
          { users := [], subscriptions := [],
            apiUsageMonthly := [(("u", 2025, 10),
              { allowance_used := 5, monthly_allowance := 100,
                subscription_id := none,
                credits_from_subscription := 5 })] }).apiUsageMonthly =
      some { allowance_used := 5, monthly_allowance := 3000,
             subscription_id := none, credits_from_subscription := 5 } ∧
    ((5 : Int) = 0 → False) := by
  constructor
  · rfl
  · decide

/-- C7 (amended): `resetPeriod` is idempotent — a second call for the same
period yields exactly the state of the first — and it establishes
`used = 0 ∧ limit = newLimit` only when no usage row exists yet for the
period; an existing row keeps its `used` and only has its limit overwritten
with `newLimit`. -/
theorem resetPeriod_idempotent_spec (userId : String) (clk : Billing.Clock)
    (newLimit : Int) (db : Billing.DB) :
    Billing.resetPeriod userId clk newLimit
        (Billing.resetPeriod userId clk newLimit db) =
      Billing.resetPeriod userId clk newLimit db ∧
    (alookup (userId, clk.year, clk.month) db.apiUsageMonthly = none →
      alookup (userId, clk.year, clk.month)
          (Billing.resetPeriod userId clk newLimit db).apiUsageMonthly =
        some { allowance_used := 0, monthly_allowance := newLimit,
               subscription_id := none, credits_from_subscription := 0 }) ∧
    (∀ row, alookup (userId, clk.year, clk.month) db.apiUsageMonthly = some row →
      alookup (userId, clk.year, clk.month)
          (Billing.resetPeriod userId clk newLimit db).apiUsageMonthly =
        some { row with monthly_allowance := newLimit }) := by
  refine ⟨?_, ?_, ?_⟩
  · cases hrow : alookup (userId, clk.year, clk.month) db.apiUsageMonthly with
    | none =>
        simp only [Billing.resetPeriod, hrow, alookup_aset_self]
        simp [aset_aset]
    | some row =>
        simp only [Billing.resetPeriod, hrow, alookup_aset_self]
        simp [aset_aset]
  · intro hrow
    simp only [Billing.resetPeriod, hrow, alookup_aset_self]
  · intro row hrow
    simp only [Billing.resetPeriod, hrow, alookup_aset_self]

/-- C7 witness: on a store with no usage row, one reset creates the zeroed
row with the new limit. -/
theorem resetPeriod_idempotent_spec_witness :
    alookup ("u", 2025, 10)
        (Billing.resetPeriod "u" { nowMs := 0, year := 2025, month := 10 } 3000
          { users := [], subscriptions := [], apiUsageMonthly := [] }).apiUsageMonthly =
      some { allowance_used := 0, monthly_allowance := 3000,
             subscription_id := none, credits_from_subscription := 0 } :=
  (resetPeriod_idempotent_spec "u" { nowMs := 0, year := 2025, month := 10 } 3000
    { users := [], subscriptions := [], apiUsageMonthly := [] }).2.1 rfl

/-- C8 counterexample: the `services/billing.js` `addCredits` has no amount
validation: adding `-5` succeeds and mutates the cached balance (and the
durable store, through the write-through flush) instead of rejecting with
`InvalidAmount`. -/
theorem addCredits_accepts_nonpositive_counterexample :
    (Billing.addCredits "u" (-5) 7
        { randFlush := false, allowanceTxOk := true, flushOk := true }
        { creditWalletCache := [("u", { balance := 1000, lastSync := 0, dirty := false })],
          monthlyAllowanceCache := [],
          db := { users := [("u", 1000)], apiUsageMonthly := [],
                  subscriptions := [] } }).1 = Except.ok 995 ∧
    alookup "u"
        (Billing.addCredits "u" (-5) 7
          { randFlush := false, allowanceTxOk := true, flushOk := true }
          { creditWalletCache := [("u", { balance := 1000, lastSync := 0, dirty := false })],
            monthlyAllowanceCache := [],
            db := { users := [("u", 1000)], apiUsageMonthly := [],
                    subscriptions := [] } }).2.db.users = some 995 ∧
    ¬((-5 : Int) > 0) := by
  refine ⟨rfl, rfl, by decide⟩

/-- C8 (amended): in the `CreditManager` variant, `chargeCredits` and
`addCredits` reject every non-positive amount synchronously with the
`Invalid credit amount` error, before any mutation of cache, queue or store;
the `services/billing.js` `addCredits` performs no such validation. -/
theorem cm_nonpositive_rejected (userId : String) (amount : Int) (now : Int)
    (s : CM.CMState) (h : amount ≤ 0) :
    CM.chargeCredits userId amount now s = (Except.error "Invalid credit amount", s) ∧
    CM.addCredits userId amount now s = (Except.error "Invalid credit amount", s) := by
  constructor
  · unfold CM.chargeCredits
    rw [if_pos h]
  · unfold CM.addCredits
    rw [if_pos h]

/-- C8 witness: a zero-amount charge and add are both rejected without
mutation. -/
theorem cm_nonpositive_rejected_witness :
    CM.chargeCredits "u" 0 3
        { creditWalletCache := [], creditUpdateQueue := [], dbUsers := [("u", 10)] } =
      (Except.error "Invalid credit amount",
       { creditWalletCache := [], creditUpdateQueue := [], dbUsers := [("u", 10)] }) ∧
    CM.addCredits "u" 0 3
        { creditWalletCache := [], creditUpdateQueue := [], dbUsers := [("u", 10)] } =
      (Except.error "Invalid credit amount",
       { creditWalletCache := [], creditUpdateQueue := [], dbUsers := [("u", 10)] }) :=
  cm_nonpositive_rejected "u" 0 3
    { creditWalletCache := [], creditUpdateQueue := [], dbUsers := [("u", 10)] }
    (by decide)

/-- On an allowance-cache hit whose entry cannot cover the cost (no allowance
or not enough left), `chargeIncludedCredits` returns `false` and leaves the
state untouched. -/
theorem chargeIncludedCredits_hit_fail {userId : String} {clk : Billing.Clock}
    {s : Billing.BillingState} {a : Billing.AllowanceEntry} {cost : Int}
    (o : Billing.Oracle)
    (ha : alookup (Billing.allowanceKey userId clk) s.monthlyAllowanceCache = some a)
    (hfall : a.limit = 0 ∨ a.used + cost > a.limit) :
    Billing.chargeIncludedCredits userId cost clk o s = (false, s) := by
  have hcond : (decide (a.limit = 0) || decide (a.used + cost > a.limit)) = true := by
    rcases hfall with h | h <;> simp [h]
  simp only [Billing.chargeIncludedCredits, Billing.getMonthlyAllowance, ha]
  simp [hcond]

/-- C1 counterexample: two wallet charges that fail the affordability check
with different `(required, available)` pairs — cost 3 against balance 2, and
cost 1 against balance 0 — throw the very same constant error value
`'Insufficient credits'`, so the failure outcome of `chargeCredits` cannot
carry `required = cost` and `available = balance` as the claim states. -/
theorem chargeCredits_error_payload_counterexample :
    ¬ ∃ required available : String → Int,
      (∀ msg,
        (Billing.chargeCredits "u" "1day" false { nowMs := 9, year := 2025, month := 10 }
            { randFlush := false, allowanceTxOk := true, flushOk := true }
            { creditWalletCache := [("u", { balance := 2, lastSync := 0, dirty := false })],
              monthlyAllowanceCache :=
                [("u-2025-10", { used := 0, limit := 0, subscription := none })],
              db := { users := [("u", 2)], apiUsageMonthly := [],
                      subscriptions := [] } }).1 = Except.error msg →
          required msg = 3 ∧ available msg = 2) ∧
      (∀ msg,
        (Billing.chargeCredits "u" "10min" false { nowMs := 9, year := 2025, month := 10 }
            { randFlush := false, allowanceTxOk := true, flushOk := true }
            { creditWalletCache := [("u", { balance := 0, lastSync := 0, dirty := false })],
              monthlyAllowanceCache :=
                [("u-2025-10", { used := 0, limit := 0, subscription := none })],
              db := { users := [("u", 0)], apiUsageMonthly := [],
                      subscriptions := [] } }).1 = Except.error msg →
          required msg = 1 ∧ available msg = 0) := by
  rintro ⟨required, available, hA, hB⟩
  have h1 := (hA "Insufficient credits" rfl).1
  have h2 := (hB "Insufficient credits" rfl).1
  rw [h1] at h2
  exact absurd h2 (by decide)

/-- C1 (amended): when the charge falls through to the wallet (the cached
allowance entry cannot cover the cost) and the cached balance is below the
cost, `chargeCredits` fails with the constant `'Insufficient credits'` error
(which carries no `required`/`available` figures) and leaves the entire state
— in particular the cached wallet balance — unchanged, so it never reduces
the balance below zero. -/
theorem chargeCredits_insufficient_no_mutation (userId timeTier : String)
    (force : Bool) (clk : Billing.Clock) (o : Billing.Oracle)
    (s : Billing.BillingState) (cost : Int) (a : Billing.AllowanceEntry)
    (c : Billing.CacheEntry)
    (hcost : Billing.CREDIT_COSTS timeTier = some cost) (hc0 : cost ≠ 0)
    (ha : alookup (Billing.allowanceKey userId clk) s.monthlyAllowanceCache = some a)
    (hfall : a.limit = 0 ∨ a.used + cost > a.limit)
    (hc : alookup userId s.creditWalletCache = some c)
    (hbal : c.balance < cost) :
    Billing.chargeCredits userId timeTier force clk o s =
      (Except.error "Insufficient credits", s) := by
  have hinc := chargeIncludedCredits_hit_fail o ha hfall
  simp only [Billing.chargeCredits, hcost, hinc, hc]
  rw [if_neg hc0]
  simp [hinc, hc, hbal]

/-- C1 witness: balance 400 against a cost-3 charge with no allowance fails
with the constant error and an unchanged state (the scenario of §8 scaled to
the embedded cost table). -/
theorem chargeCredits_insufficient_no_mutation_witness :
    Billing.chargeCredits "u" "1day" false { nowMs := 9, year := 2025, month := 10 }
        { randFlush := false, allowanceTxOk := true, flushOk := true }
        { creditWalletCache := [("u", { balance := 2, lastSync := 0, dirty := false })],
          monthlyAllowanceCache :=
            [("u-2025-10", { used := 0, limit := 0, subscription := none })],
          db := { users := [("u", 2)], apiUsageMonthly := [], subscriptions := [] } } =
      (Except.error "Insufficient credits",
       { creditWalletCache := [("u", { balance := 2, lastSync := 0, dirty := false })],
         monthlyAllowanceCache :=
           [("u-2025-10", { used := 0, limit := 0, subscription := none })],
         db := { users := [("u", 2)], apiUsageMonthly := [], subscriptions := [] } }) :=
  chargeCredits_insufficient_no_mutation "u" "1day" false
    { nowMs := 9, year := 2025, month := 10 }
    { randFlush := false, allowanceTxOk := true, flushOk := true }
    { creditWalletCache := [("u", { balance := 2, lastSync := 0, dirty := false })],
      monthlyAllowanceCache :=
        [("u-2025-10", { used := 0, limit := 0, subscription := none })],
      db := { users := [("u", 2)], apiUsageMonthly := [], subscriptions := [] } }
    3 { used := 0, limit := 0, subscription := none }
    { balance := 2, lastSync := 0, dirty := false }
    rfl (by decide) rfl (Or.inl rfl) rfl (by decide)

/-- `usageUpsert` only touches the `api_usage_monthly` table. -/
theorem usageUpsert_users (userId : String) (clk : Billing.Clock) (cost : Int)
    (info : Billing.AllowanceEntry) (db : Billing.DB) :
    (Billing.usageUpsert userId clk cost info db).users = db.users := by
  simp only [Billing.usageUpsert]
  split <;> rfl

/-- On an allowance-cache hit with a non-zero limit and enough remaining
capacity, a successful transaction consumes from the allowance: the entry's
`used` grows by the cost, the usage row is upserted, and nothing else
changes. -/
theorem chargeIncludedCredits_hit_success {userId : String} {clk : Billing.Clock}
    {s : Billing.BillingState} {a : Billing.AllowanceEntry} {cost : Int}
    {o : Billing.Oracle}
    (ha : alookup (Billing.allowanceKey userId clk) s.monthlyAllowanceCache = some a)
    (hlim : a.limit ≠ 0) (hle : a.used + cost ≤ a.limit)
    (htx : o.allowanceTxOk = true) :
    Billing.chargeIncludedCredits userId cost clk o s =
      (true,
       { s with
          db := Billing.usageUpsert userId clk cost a s.db
          monthlyAllowanceCache :=
            aset (Billing.allowanceKey userId clk) { a with used := a.used + cost }
              s.monthlyAllowanceCache }) := by
  have hcond : (decide (a.limit = 0) || decide (a.used + cost > a.limit)) = false := by
    simp [hlim, not_lt.mpr hle]
  simp only [Billing.chargeIncludedCredits, Billing.getMonthlyAllowance, ha]
  simp [hcond, htx]

/-- C3: if the cached allowance entry for the current period has a positive
limit and remaining capacity at least the cost, `chargeCredits` consumes the
cost entirely from the monthly allowance (`source = 'monthly_allowance'`,
`used` grows by the cost) and does not touch the wallet at all: neither the
wallet cache nor the `users.credit_balance` column changes. -/
theorem chargeCredits_allowance_only (userId timeTier : String) (force : Bool)
    (clk : Billing.Clock) (o : Billing.Oracle) (s : Billing.BillingState)
    (cost : Int) (a : Billing.AllowanceEntry)
    (hcost : Billing.CREDIT_COSTS timeTier = some cost) (hc0 : cost ≠ 0)
    (ha : alookup (Billing.allowanceKey userId clk) s.monthlyAllowanceCache = some a)
    (hlim : 0 < a.limit) (hle : a.used + cost ≤ a.limit)
    (htx : o.allowanceTxOk = true) :
    ∃ s', Billing.chargeCredits userId timeTier force clk o s =
        (Except.ok { source := "monthly_allowance", cost := cost }, s') ∧
      s'.creditWalletCache = s.creditWalletCache ∧
      s'.db.users = s.db.users ∧
      alookup (Billing.allowanceKey userId clk) s'.monthlyAllowanceCache =
        some { a with used := a.used + cost } := by
  have hinc := chargeIncludedCredits_hit_success ha (by omega) hle htx
  refine ⟨{ s with
             db := Billing.usageUpsert userId clk cost a s.db
             monthlyAllowanceCache :=
               aset (Billing.allowanceKey userId clk) { a with used := a.used + cost }
                 s.monthlyAllowanceCache },
          ?_, rfl, usageUpsert_users userId clk cost a s.db, alookup_aset_self _ _ _⟩
  simp only [Billing.chargeCredits, hcost, hinc]
  rw [if_neg hc0]

/-- C3 witness: the §8 scenario — limit 3000, used 2990, a cost-2 charge is
served wholly by the allowance and the wallet (cache and store) is
untouched. -/
theorem chargeCredits_allowance_only_witness :
    ∃ s', Billing.chargeCredits "u" "1hour" false { nowMs := 5, year := 2025, month := 10 }
        { randFlush := false, allowanceTxOk := true, flushOk := true }
        { creditWalletCache := [("u", { balance := 1000, lastSync := 0, dirty := false })],
          monthlyAllowanceCache :=
            [("u-2025-10", { used := 2990, limit := 3000, subscription := none })],
          db := { users := [("u", 1000)], apiUsageMonthly := [],
                  subscriptions := [] } } =
        (Except.ok { source := "monthly_allowance", cost := 2 }, s') ∧
      s'.creditWalletCache =
        [("u", { balance := 1000, lastSync := 0, dirty := false })] ∧
      s'.db.users = [("u", 1000)] ∧
      alookup "u-2025-10" s'.monthlyAllowanceCache =
        some { used := 2992, limit := 3000, subscription := none } :=
  chargeCredits_allowance_only "u" "1hour" false { nowMs := 5, year := 2025, month := 10 }
    { randFlush := false, allowanceTxOk := true, flushOk := true }
    { creditWalletCache := [("u", { balance := 1000, lastSync := 0, dirty := false })],
      monthlyAllowanceCache :=
        [("u-2025-10", { used := 2990, limit := 3000, subscription := none })],
      db := { users := [("u", 1000)], apiUsageMonthly := [], subscriptions := [] } }
    2 { used := 2990, limit := 3000, subscription := none }
    rfl (by decide) rfl (by decide) (by decide) rfl

/-- C6: `chargeIncludedCredits` (the `tryConsume` of the spec) returns
`false` without any mutation whenever the cached entry satisfies
`used + amount > limit` — including whenever `limit = 0` — and consequently a
successful consume preserves the invariant that every Monthly Allowance Entry
satisfies `used ≤ limit`. -/
theorem tryConsume_never_exceeds_limit (userId : String) (cost : Int)
    (clk : Billing.Clock) (o : Billing.Oracle) (s : Billing.BillingState) :
    (∀ a, alookup (Billing.allowanceKey userId clk) s.monthlyAllowanceCache = some a →
      (a.limit = 0 ∨ a.used + cost > a.limit) →
      Billing.chargeIncludedCredits userId cost clk o s = (false, s)) ∧
    (∀ s', (∀ p ∈ s.monthlyAllowanceCache, p.2.used ≤ p.2.limit) →
      Billing.chargeIncludedCredits userId cost clk o s = (true, s') →
      ∀ p ∈ s'.monthlyAllowanceCache, p.2.used ≤ p.2.limit) := by
  constructor
  · intro a ha hfall
    exact chargeIncludedCredits_hit_fail o ha hfall
  · intro s' hInv hrun
    cases ha : alookup (Billing.allowanceKey userId clk) s.monthlyAllowanceCache with
    | some a =>
        simp only [Billing.chargeIncludedCredits, Billing.getMonthlyAllowance, ha]
          at hrun
        by_cases hcond : (decide (a.limit = 0) || decide (a.used + cost > a.limit)) = true
        · rw [if_pos hcond] at hrun
          simp at hrun
        · rw [if_neg hcond] at hrun
          have hle : a.used + cost ≤ a.limit := by
            simp only [Bool.or_eq_true, decide_eq_true_eq, not_or] at hcond
            omega
          by_cases htx : o.allowanceTxOk = true
          · rw [if_pos htx] at hrun
            have hs' : s' =
                { s with
                   db := Billing.usageUpsert userId clk cost a s.db
                   monthlyAllowanceCache :=
                     aset (Billing.allowanceKey userId clk)
                       { a with used := a.used + cost } s.monthlyAllowanceCache } := by
              have := (Prod.mk.injEq _ _ _ _).mp hrun
              exact this.2.symm
            subst hs'
            intro p hp
            rcases mem_aset hp with hpe | hpm
            · subst hpe
              simpa using hle
            · exact hInv p hpm
          · rw [if_neg htx] at hrun
            simp at hrun
    | none =>
        simp only [Billing.chargeIncludedCredits, Billing.getMonthlyAllowance, ha]
          at hrun
        set loaded : Billing.AllowanceEntry :=
          { used := ((alookup (userId, clk.year, clk.month)
                s.db.apiUsageMonthly).map (·.allowance_used)).getD 0
            limit := Billing.planMonthlyAllowance
              (((Billing.findActiveSubscription userId s.db).map (·.plan_type)).getD "free")
            subscription := (Billing.findActiveSubscription userId s.db).map (·.id) }
          with hloaded
        by_cases hcond :
            (decide (loaded.limit = 0) || decide (loaded.used + cost > loaded.limit)) = true
        · rw [if_pos hcond] at hrun
          simp at hrun
        · rw [if_neg hcond] at hrun
          have hcond2 : ¬(loaded.limit = 0 ∨ loaded.used + cost > loaded.limit) := by
            intro hor
            apply hcond
            rcases hor with h | h
            · rw [decide_eq_true h]
              rfl
            · rw [decide_eq_true h]
              exact Bool.or_true _
          have hle : loaded.used + cost ≤ loaded.limit :=
            not_lt.mp (fun hlt => hcond2 (Or.inr hlt))
          by_cases htx : o.allowanceTxOk = true
          · rw [if_pos htx] at hrun
            have hs' := ((Prod.mk.injEq _ _ _ _).mp hrun).2.symm
            subst hs'
            intro p hp
            simp only [aset_aset] at hp
            rcases mem_aset hp with hpe | hpm
            · subst hpe
              simpa using hle
            · exact hInv p hpm
          · rw [if_neg htx] at hrun
            simp at hrun

/-- C6 witness: with limit 0 the consume is rejected without mutation, and a
successful consume keeps every cached entry within its limit. -/
theorem tryConsume_never_exceeds_limit_witness :
    Billing.chargeIncludedCredits "u" 2 { nowMs := 5, year := 2025, month := 10 }
        { randFlush := false, allowanceTxOk := true, flushOk := true }
        { creditWalletCache := [],
          monthlyAllowanceCache :=
            [("u-2025-10", { used := 0, limit := 0, subscription := none })],
          db := { users := [], apiUsageMonthly := [], subscriptions := [] } } =
      (false,
       { creditWalletCache := [],
         monthlyAllowanceCache :=
           [("u-2025-10", { used := 0, limit := 0, subscription := none })],
         db := { users := [], apiUsageMonthly := [], subscriptions := [] } }) :=
  (tryConsume_never_exceeds_limit "u" 2 { nowMs := 5, year := 2025, month := 10 }
    { randFlush := false, allowanceTxOk := true, flushOk := true }
    { creditWalletCache := [],
      monthlyAllowanceCache :=
        [("u-2025-10", { used := 0, limit := 0, subscription := none })],
      db := { users := [], apiUsageMonthly := [], subscriptions := [] } }).1
    { used := 0, limit := 0, subscription := none } rfl (Or.inl rfl)

/-- C4: `addCredits` always sets the cached balance to the old balance (the
one `getCreditBalance` would report) plus the amount, and synchronously
forces an immediate flush of that entry: when it returns, the user row of the
Durable Store already holds the new balance and the entry is clean. -/
theorem addCredits_write_through (userId : String) (amount : Int) (now : Int)
    (o : Billing.Oracle) (s : Billing.BillingState) (b d : Int)
    (hb : (Billing.getCreditBalance userId now s).1 = Except.ok b)
    (hd : alookup userId s.db.users = some d)
    (hok : o.flushOk = true) :
    (Billing.addCredits userId amount now o s).1 = Except.ok (b + amount) ∧
    alookup userId (Billing.addCredits userId amount now o s).2.db.users =
      some (b + amount) ∧
    alookup userId (Billing.addCredits userId amount now o s).2.creditWalletCache =
      some { balance := b + amount, lastSync := now, dirty := false } := by
  cases hc : alookup userId s.creditWalletCache with
  | some c =>
      have hcb : c.balance = b := by
        simp only [Billing.getCreditBalance, hc] at hb
        exact Except.ok.inj hb
      subst hcb
      simp only [Billing.addCredits, hc, Billing.flushUserToDatabase,
        alookup_aset_self, Bool.not_true, hok]
      simp [aset_aset, alookup_aset_self, alookup_aupdate_self hd]
  | none =>
      have hdb : d = b := by
        simp only [Billing.getCreditBalance, Billing.initializeUserCache, hc, hd] at hb
        exact Except.ok.inj hb
      subst hdb
      simp only [Billing.addCredits, Billing.initializeUserCache, hc, hd,
        Billing.flushUserToDatabase, alookup_aset_self, Bool.not_true, hok]
      simp [aset_aset, alookup_aset_self, alookup_aupdate_self hd]

/-- C4 witness: a 500-credit purchase on a cached balance of 1000 leaves both
the cache and the store at 1500, with the entry clean. -/
theorem addCredits_write_through_witness :
    (Billing.addCredits "u" 500 7
        { randFlush := false, allowanceTxOk := true, flushOk := true }
        { creditWalletCache := [("u", { balance := 1000, lastSync := 0, dirty := false })],
          monthlyAllowanceCache := [],
          db := { users := [("u", 1000)], apiUsageMonthly := [],
                  subscriptions := [] } }).1 = Except.ok 1500 ∧
    alookup "u"
        (Billing.addCredits "u" 500 7
          { randFlush := false, allowanceTxOk := true, flushOk := true }
          { creditWalletCache := [("u", { balance := 1000, lastSync := 0, dirty := false })],
            monthlyAllowanceCache := [],
            db := { users := [("u", 1000)], apiUsageMonthly := [],
                    subscriptions := [] } }).2.db.users = some 1500 ∧
    alookup "u"
        (Billing.addCredits "u" 500 7
          { randFlush := false, allowanceTxOk := true, flushOk := true }
          { creditWalletCache := [("u", { balance := 1000, lastSync := 0, dirty := false })],
            monthlyAllowanceCache := [],
            db := { users := [("u", 1000)], apiUsageMonthly := [],
                    subscriptions := [] } }).2.creditWalletCache =
      some { balance := 1500, lastSync := 7, dirty := false } :=
  addCredits_write_through "u" 500 7
    { randFlush := false, allowanceTxOk := true, flushOk := true }
    { creditWalletCache := [("u", { balance := 1000, lastSync := 0, dirty := false })],
      monthlyAllowanceCache := [],
      db := { users := [("u", 1000)], apiUsageMonthly := [], subscriptions := [] } }
    1000 1000 rfl rfl rfl

/-- C5 counterexample: a Durable Store failure during the write-through flush
inside `addCredits` IS raised to the caller of `addCredits` — the call
returns the store error (while the in-memory mutation, balance 1005 and
`dirty = true`, stays applied), contradicting "the failure is never raised to
the caller of the chargeCredits/addCredits operation that triggered the
flush". -/
theorem flush_failure_raised_counterexample :
    (Billing.addCredits "u" 5 7
        { randFlush := false, allowanceTxOk := true, flushOk := false }
        { creditWalletCache := [("u", { balance := 1000, lastSync := 0, dirty := false })],
          monthlyAllowanceCache := [],
          db := { users := [("u", 1000)], apiUsageMonthly := [],
                  subscriptions := [] } }).1 =
      Except.error "Failed to flush user balance to database" ∧
    alookup "u"
        (Billing.addCredits "u" 5 7
          { randFlush := false, allowanceTxOk := true, flushOk := false }
          { creditWalletCache := [("u", { balance := 1000, lastSync := 0, dirty := false })],
            monthlyAllowanceCache := [],
            db := { users := [("u", 1000)], apiUsageMonthly := [],
                    subscriptions := [] } }).2.creditWalletCache =
      some { balance := 1005, lastSync := 7, dirty := true } :=
  ⟨rfl, rfl⟩

/-- C5 (amended): a Durable Store failure during `flushUserToDatabase` or
`batchFlushToDatabase` leaves the affected entries dirty and the store
untouched, so they are retried on the next cycle, and the in-memory mutation
already applied is not rolled back; however, when the failing flush is the
synchronous write-through inside `addCredits` (or `chargeCredits`), the error
does propagate to that caller — only the periodic scheduler swallows it. -/
theorem flush_failure_semantics (userId : String) (now : Int) (o : Billing.Oracle)
    (s : Billing.BillingState) (c : Billing.CacheEntry)
    (hok : o.flushOk = false) :
    (alookup userId s.creditWalletCache = some c → c.dirty = true →
      Billing.flushUserToDatabase userId now o s =
        (Except.error "Failed to flush user balance to database", s)) ∧
    (((s.creditWalletCache.filter (fun p => p.2.dirty)).take 50).isEmpty = false →
      Billing.batchFlushToDatabase now o s =
        (Except.error "Failed to batch flush to database", s)) ∧
    (∀ amount, alookup userId s.creditWalletCache = some c →
      Billing.addCredits userId amount now o s =
        (Except.error "Failed to flush user balance to database",
         { s with
            creditWalletCache :=
              aset userId { balance := c.balance + amount, lastSync := now, dirty := true }
                s.creditWalletCache })) := by
  refine ⟨?_, ?_, ?_⟩
  · intro hc hdirty
    simp only [Billing.flushUserToDatabase, hc, hdirty, Bool.not_true, hok]
    rfl
  · intro hne
    simp only [Billing.batchFlushToDatabase, hne, hok]
    rfl
  · intro amount hc
    simp only [Billing.addCredits, hc, Billing.flushUserToDatabase, alookup_aset_self,
      Bool.not_true, hok]
    rfl

/-- C5 witness: a dirty entry survives a failed single flush unchanged, a
failed batch flush changes nothing, and a failed write-through inside
`addCredits` returns the error with the mutation kept. -/
theorem flush_failure_semantics_witness :
    (Billing.flushUserToDatabase "u" 9
        { randFlush := false, allowanceTxOk := true, flushOk := false }
        { creditWalletCache := [("u", { balance := 42, lastSync := 1, dirty := true })],
          monthlyAllowanceCache := [],
          db := { users := [("u", 40)], apiUsageMonthly := [], subscriptions := [] } } =
      (Except.error "Failed to flush user balance to database",
       { creditWalletCache := [("u", { balance := 42, lastSync := 1, dirty := true })],
         monthlyAllowanceCache := [],
         db := { users := [("u", 40)], apiUsageMonthly := [], subscriptions := [] } })) ∧
    (Billing.batchFlushToDatabase 9
        { randFlush := false, allowanceTxOk := true, flushOk := false }
        { creditWalletCache := [("u", { balance := 42, lastSync := 1, dirty := true })],
          monthlyAllowanceCache := [],
          db := { users := [("u", 40)], apiUsageMonthly := [], subscriptions := [] } } =
      (Except.error "Failed to batch flush to database",
       { creditWalletCache := [("u", { balance := 42, lastSync := 1, dirty := true })],
         monthlyAllowanceCache := [],
         db := { users := [("u", 40)], apiUsageMonthly := [], subscriptions := [] } })) ∧
    (Billing.addCredits "u" 5 9
        { randFlush := false, allowanceTxOk := true, flushOk := false }
        { creditWalletCache := [("u", { balance := 42, lastSync := 1, dirty := true })],
          monthlyAllowanceCache := [],
          db := { users := [("u", 40)], apiUsageMonthly := [], subscriptions := [] } } =
      (Except.error "Failed to flush user balance to database",
       { creditWalletCache := [("u", { balance := 47, lastSync := 9, dirty := true })],
         monthlyAllowanceCache := [],
         db := { users := [("u", 40)], apiUsageMonthly := [], subscriptions := [] } })) := by
  have h := flush_failure_semantics "u" 9
    { randFlush := false, allowanceTxOk := true, flushOk := false }
    { creditWalletCache := [("u", { balance := 42, lastSync := 1, dirty := true })],
      monthlyAllowanceCache := [],
      db := { users := [("u", 40)], apiUsageMonthly := [], subscriptions := [] } }
    { balance := 42, lastSync := 1, dirty := true } rfl
  exact ⟨h.1 rfl rfl, h.2.1 rfl, h.2.2 5 rfl⟩

/-- `chargeIncludedCredits` never touches the wallet cache. -/
theorem chargeIncludedCredits_wallet_frame (userId : String) (cost : Int)
    (clk : Billing.Clock) (o : Billing.Oracle) (s : Billing.BillingState) :
    (Billing.chargeIncludedCredits userId cost clk o s).2.creditWalletCache =
      s.creditWalletCache := by
  simp only [Billing.chargeIncludedCredits, Billing.getMonthlyAllowance]
  split <;> split <;> (try rfl) <;> split <;> rfl

/-- A flush never changes the balance recorded in the wallet-cache entry. -/
theorem flushUserToDatabase_balance_frame (userId : String) (now : Int)
    (o : Billing.Oracle) (s : Billing.BillingState) :
    ((alookup userId
        (Billing.flushUserToDatabase userId now o s).2.creditWalletCache).map
      (·.balance)) = (alookup userId s.creditWalletCache).map (·.balance) := by
  simp only [Billing.flushUserToDatabase]
  cases hc : alookup userId s.creditWalletCache with
  | none => simp [hc]
  | some c =>
      by_cases hd : c.dirty
      · by_cases hok : o.flushOk
        · simp [hc, hd, hok, alookup_aset_self]
        · simp [hc, hd, hok]
      · simp [hc, hd]

/-- Balance stability through an optional flush step. -/
theorem step_balance_stable {userId : String} {now : Int} {o : Billing.Oracle}
    {s : Billing.BillingState} {bal : Int} (cond : Bool)
    (h : (alookup userId s.creditWalletCache).map (·.balance) = some bal) :
    ((alookup userId
        (if cond then Billing.flushUserToDatabase userId now o s
         else (Except.ok (), s)).2.creditWalletCache).map (·.balance)) = some bal := by
  cases cond with
  | false => simpa using h
  | true =>
      simpa using (flushUserToDatabase_balance_frame userId now o s).trans h

/-- A successful `chargeCredits` on a cached wallet entry leaves the entry's
balance unchanged when the charge was served by the allowance, and lowers it
by exactly the cost when it was served by the wallet. -/
theorem chargeCredits_ok_balance {userId timeTier : String} {force : Bool}
    {clk : Billing.Clock} {o : Billing.Oracle} {s s' : Billing.BillingState}
    {r : Billing.ChargeResult} {c : Billing.CacheEntry}
    (hc : alookup userId s.creditWalletCache = some c)
    (hrun : Billing.chargeCredits userId timeTier force clk o s = (Except.ok r, s')) :
    ∃ c', alookup userId s'.creditWalletCache = some c' ∧
      c'.balance = c.balance + (if r.source = "topup_credits" then -r.cost else 0) := by
  unfold Billing.chargeCredits at hrun
  split at hrun
  · simp at hrun
  · rename_i cost heq
    split at hrun
    · simp at hrun
    · split at hrun
      · rename_i s1 hinc
        have hs1 : s1.creditWalletCache = s.creditWalletCache := by
          have hfr := chargeIncludedCredits_wallet_frame userId cost clk o s
          rw [hinc] at hfr
          exact hfr
        have hr : r = { source := "monthly_allowance", cost := cost } ∧ s' = s1 := by
          have h2 := (Prod.mk.injEq _ _ _ _).mp hrun
          exact ⟨(Except.ok.inj h2.1).symm, h2.2.symm⟩
        obtain ⟨hr1, hr2⟩ := hr
        subst hr1
        subst hr2
        refine ⟨c, by rw [hs1]; exact hc, ?_⟩
        rw [if_neg (by decide : ¬("monthly_allowance" : String) = "topup_credits")]
        ring
      · rename_i s1 hinc
        have hs1 : s1.creditWalletCache = s.creditWalletCache := by
          have hfr := chargeIncludedCredits_wallet_frame userId cost clk o s
          rw [hinc] at hfr
          exact hfr
        rw [hs1, hc] at hrun
        dsimp only at hrun
        split at hrun
        · simp at hrun
        · rename_i hb
          split at hrun
          · simp at hrun
          · rename_i a s4 hstep1
            have hbal4 : (alookup userId s4.creditWalletCache).map (·.balance) =
                some (c.balance - cost) := by
              by_cases hcnd :
                  (decide (c.balance - cost < Billing.CRITICAL_BALANCE_THRESHOLD)
                    || force) = true
              · rw [if_pos hcnd] at hstep1
                have hfr := flushUserToDatabase_balance_frame userId clk.nowMs o
                  ⟨aset userId ⟨c.balance - cost, clk.nowMs, true⟩ s1.creditWalletCache,
                   s1.monthlyAllowanceCache, s1.db⟩
                rw [hstep1] at hfr
                simpa [alookup_aset_self] using hfr
              · rw [if_neg hcnd] at hstep1
                have hs4 : s4 =
                    ⟨aset userId ⟨c.balance - cost, clk.nowMs, true⟩ s1.creditWalletCache,
                     s1.monthlyAllowanceCache, s1.db⟩ :=
                  ((Prod.mk.injEq _ _ _ _).mp hstep1).2.symm
                subst hs4
                simp [alookup_aset_self]
            split at hrun
            · simp at hrun
            · rename_i a2 s5 hstep2
              have hbal5 : (alookup userId s5.creditWalletCache).map (·.balance) =
                  some (c.balance - cost) := by
                by_cases hrand : o.randFlush = true
                · rw [if_pos hrand] at hstep2
                  have hfr := flushUserToDatabase_balance_frame userId clk.nowMs o s4
                  rw [hstep2] at hfr
                  dsimp only at hfr
                  exact hfr.trans hbal4
                · rw [if_neg hrand] at hstep2
                  have hs5 : s5 = s4 := ((Prod.mk.injEq _ _ _ _).mp hstep2).2.symm
                  subst hs5
                  exact hbal4
              have hr : r = { source := "topup_credits", cost := cost } ∧ s' = s5 := by
                have h2 := (Prod.mk.injEq _ _ _ _).mp hrun
                exact ⟨(Except.ok.inj h2.1).symm, h2.2.symm⟩
              obtain ⟨hr1, hr2⟩ := hr
              subst hr1
              subst hr2
              obtain ⟨c', hc', hcb⟩ := Option.map_eq_some'.mp hbal5
              refine ⟨c', hc', ?_⟩
              rw [if_pos rfl]
              dsimp only
              omega

/-- A successful `addCredits` on a cached wallet entry raises the entry's
balance by exactly the amount. -/
theorem addCredits_ok_balance {userId : String} {amount now : Int}
    {o : Billing.Oracle} {s s' : Billing.BillingState} {b : Int}
    {c : Billing.CacheEntry}
    (hc : alookup userId s.creditWalletCache = some c)
    (hrun : Billing.addCredits userId amount now o s = (Except.ok b, s')) :
    ∃ c', alookup userId s'.creditWalletCache = some c' ∧
      c'.balance = c.balance + amount := by
  unfold Billing.addCredits at hrun
  rw [hc] at hrun
  dsimp only at hrun
  split at hrun
  · simp at hrun
  · rename_i a s3 hflush
    have hbal : (alookup userId s3.creditWalletCache).map (·.balance) =
        some (c.balance + amount) := by
      have hfr := flushUserToDatabase_balance_frame userId now o
        ⟨aset userId ⟨c.balance + amount, now, true⟩ s.creditWalletCache,
         s.monthlyAllowanceCache, s.db⟩
      rw [hflush] at hfr
      simpa [alookup_aset_self] using hfr
    have hs' : s' = s3 := ((Prod.mk.injEq _ _ _ _).mp hrun).2.symm
    subst hs'
    obtain ⟨c', hc', hcb⟩ := Option.map_eq_some'.mp hbal
    exact ⟨c', hc', hcb⟩

/-- C2 (amended): for any sequence of `chargeCredits`/`addCredits` operations
on one account in which no operation failed, the final cached balance equals
the initial balance minus the sum of the costs of the charges drawn from the
wallet (`source = 'topup_credits'`) plus the sum of all added amounts;
charges served by the monthly allowance do not enter the wallet ledger. -/
theorem conservation_wallet (userId : String) (clk : Billing.Clock) :
    ∀ (ops : List Billing.WalletOp) (s : Billing.BillingState)
      (c : Billing.CacheEntry) (results : List (Except String Billing.OpOutcome))
      (s' : Billing.BillingState),
      alookup userId s.creditWalletCache = some c →
      Billing.runOps userId clk ops s = (results, s') →
      (∀ r ∈ results, Billing.opOk r = true) →
      ∃ c', alookup userId s'.creditWalletCache = some c' ∧
        c'.balance = c.balance + Billing.walletDelta (ops.zip results) := by
  intro ops
  induction ops with
  | nil =>
      intro s c results s' hc hrun hok
      simp only [Billing.runOps] at hrun
      obtain ⟨rfl, rfl⟩ := (Prod.mk.injEq _ _ _ _).mp hrun
      exact ⟨c, hc, by simp [Billing.walletDelta]⟩
  | cons op rest ih =>
      intro s c results s' hc hrun hok
      simp only [Billing.runOps] at hrun
      cases happ : Billing.applyOp userId clk s op with
      | mk r s1 =>
        rw [happ] at hrun
        dsimp only at hrun
        cases hrest : Billing.runOps userId clk rest s1 with
        | mk rs s2 =>
          rw [hrest] at hrun
          dsimp only at hrun
          obtain ⟨rfl, rfl⟩ := (Prod.mk.injEq _ _ _ _).mp hrun
          have hokr : Billing.opOk r = true := hok r (List.mem_cons_self _ _)
          have hokrest : ∀ x ∈ rs, Billing.opOk x = true :=
            fun x hx => hok x (List.mem_cons_of_mem _ hx)
          cases op with
          | charge tier force o =>
              simp only [Billing.applyOp] at happ
              split at happ
              · rename_i r0 s1' hch
                obtain ⟨rfl, rfl⟩ := (Prod.mk.injEq _ _ _ _).mp happ
                obtain ⟨c1, hc1, hb1⟩ := chargeCredits_ok_balance hc hch
                obtain ⟨c', hc', hb'⟩ := ih s1' c1 rs s2 hc1 hrest hokrest
                refine ⟨c', hc', ?_⟩
                simp only [List.zip_cons_cons, Billing.walletDelta]
                rw [hb', hb1, Int.add_assoc]
                rfl
              · rename_i e s1' hch
                obtain ⟨rfl, rfl⟩ := (Prod.mk.injEq _ _ _ _).mp happ
                simp [Billing.opOk] at hokr
          | add amount o =>
              simp only [Billing.applyOp] at happ
              split at happ
              · rename_i b0 s1' hadd
                obtain ⟨rfl, rfl⟩ := (Prod.mk.injEq _ _ _ _).mp happ
                obtain ⟨c1, hc1, hb1⟩ := addCredits_ok_balance hc hadd
                obtain ⟨c', hc', hb'⟩ := ih s1' c1 rs s2 hc1 hrest hokrest
                refine ⟨c', hc', ?_⟩
                simp only [List.zip_cons_cons, Billing.walletDelta]
                rw [hb', hb1, Int.add_assoc]
                rfl
              · rename_i e s1' hadd
                obtain ⟨rfl, rfl⟩ := (Prod.mk.injEq _ _ _ _).mp happ
                simp [Billing.opOk] at hokr

/-- C2 counterexample: with a premium allowance cached (limit 3000, used 0)
a successful cost-2 charge is served by the allowance and leaves the cached
wallet balance at 1000, while the claimed formula
`initialBalance - Σcharges + Σadds` predicts 998: the conservation equation
of the claim fails as soon as one charge is served by the monthly
allowance. -/
theorem conservation_counterexample :
    ((Billing.runOps "u" ⟨5, 2025, 10⟩
        [Billing.WalletOp.charge "1hour" false ⟨false, true, true⟩]
        ⟨[("u", ⟨1000, 0, false⟩)], [("u-2025-10", ⟨0, 3000, none⟩)],
         ⟨[("u", 1000)], [], []⟩⟩).1.all Billing.opOk) = true ∧
    alookup "u"
        (Billing.runOps "u" ⟨5, 2025, 10⟩
          [Billing.WalletOp.charge "1hour" false ⟨false, true, true⟩]
          ⟨[("u", ⟨1000, 0, false⟩)], [("u-2025-10", ⟨0, 3000, none⟩)],
           ⟨[("u", 1000)], [], []⟩⟩).2.creditWalletCache =
      some ⟨1000, 0, false⟩ ∧
    1000 + Billing.specDelta
        ([Billing.WalletOp.charge "1hour" false ⟨false, true, true⟩].zip
          (Billing.runOps "u" ⟨5, 2025, 10⟩
            [Billing.WalletOp.charge "1hour" false ⟨false, true, true⟩]
            ⟨[("u", ⟨1000, 0, false⟩)], [("u-2025-10", ⟨0, 3000, none⟩)],
             ⟨[("u", 1000)], [], []⟩⟩).1) = 998 ∧
    ¬((1000 : Int) = 998) := by
  refine ⟨rfl, rfl, rfl, by decide⟩

/-- C2 witness: a wallet charge of 2 followed by an addition of 500 on an
account without allowance ends at 1000 - 2 + 500 = 1498. -/
theorem conservation_wallet_witness :
    ∃ c', alookup "u"
        (Billing.runOps "u" ⟨5, 2025, 10⟩
          [Billing.WalletOp.charge "1hour" false ⟨false, true, true⟩,
           Billing.WalletOp.add 500 ⟨false, true, true⟩]
          ⟨[("u", ⟨1000, 0, false⟩)], [("u-2025-10", ⟨0, 0, none⟩)],
           ⟨[("u", 1000)], [], []⟩⟩).2.creditWalletCache = some c' ∧
      c'.balance = (1000 : Int) + Billing.walletDelta
        ([Billing.WalletOp.charge "1hour" false ⟨false, true, true⟩,
          Billing.WalletOp.add 500 ⟨false, true, true⟩].zip
          (Billing.runOps "u" ⟨5, 2025, 10⟩
            [Billing.WalletOp.charge "1hour" false ⟨false, true, true⟩,
             Billing.WalletOp.add 500 ⟨false, true, true⟩]
            ⟨[("u", ⟨1000, 0, false⟩)], [("u-2025-10", ⟨0, 0, none⟩)],
             ⟨[("u", 1000)], [], []⟩⟩).1) :=
  conservation_wallet "u" ⟨5, 2025, 10⟩
    [Billing.WalletOp.charge "1hour" false ⟨false, true, true⟩,
     Billing.WalletOp.add 500 ⟨false, true, true⟩]
    ⟨[("u", ⟨1000, 0, false⟩)], [("u-2025-10", ⟨0, 0, none⟩)],
     ⟨[("u", 1000)], [], []⟩⟩
    ⟨1000, 0, false⟩
    (Billing.runOps "u" ⟨5, 2025, 10⟩
      [Billing.WalletOp.charge "1hour" false ⟨false, true, true⟩,
       Billing.WalletOp.add 500 ⟨false, true, true⟩]
      ⟨[("u", ⟨1000, 0, false⟩)], [("u-2025-10", ⟨0, 0, none⟩)],
       ⟨[("u", 1000)], [], []⟩⟩).1
    (Billing.runOps "u" ⟨5, 2025, 10⟩
      [Billing.WalletOp.charge "1hour" false ⟨false, true, true⟩,
       Billing.WalletOp.add 500 ⟨false, true, true⟩]
      ⟨[("u", ⟨1000, 0, false⟩)], [("u-2025-10", ⟨0, 0, none⟩)],
       ⟨[("u", 1000)], [], []⟩⟩).2
    rfl rfl (by decide)

/-- `balance_${a} = balance_${b}` forces `a = b`. -/
theorem balanceKey_inj {a b : String} (h : CM.balanceKey a = CM.balanceKey b) :
    a = b := by
  have hd := congrArg String.data h
  simp only [CM.balanceKey, String.data_append] at hd
  exact String.ext (List.append_cancel_left hd)

/-- The per-key multiplicity of queue entries after an `aset`. -/
theorem keysCount_aset (u w : String) (e : CM.QueueEntry)
    (q : List (String × CM.QueueEntry)) :
    CM.keysCount u (aset w e q) =
      if u = w then max 1 (CM.keysCount u q) else CM.keysCount u q := by
  induction q with
  | nil =>
      by_cases hw : u = w
      · subst hw
        simp [CM.keysCount, aset, List.count_cons]
      · simp [CM.keysCount, aset, List.count_cons, List.count_nil, hw, Ne.symm hw]
  | cons p rest ih =>
      obtain ⟨k, v⟩ := p
      by_cases hk : w = k
      · subst hk
        by_cases hw : u = w
        · subst hw
          simp only [CM.keysCount, aset, if_pos rfl, List.map_cons, List.count_cons,
            if_pos rfl, if_true]
          simp [CM.keysCount] at ih ⊢
        · simp [CM.keysCount, aset, List.count_cons, hw, Ne.symm hw]
      · by_cases hw : u = w
        · subst hw
          have hku : (k = u) = False := by
            simp only [eq_iff_iff, iff_false]
            exact fun hh => hk hh.symm
          simp only [CM.keysCount, aset, if_neg hk, List.map_cons, List.count_cons,
            hku, if_false, Nat.add_zero]
          simp only [CM.keysCount] at ih
          rw [ih]
          simp [hku]
        · simp only [CM.keysCount, aset, if_neg hk, List.map_cons, List.count_cons]
          simp only [CM.keysCount] at ih
          rw [ih]
          simp [hw]

/-- `aset` keeps the per-key multiplicity of queue entries at most one. -/
theorem keysCount_aset_le {u w : String} (e : CM.QueueEntry)
    (q : List (String × CM.QueueEntry)) (h : CM.keysCount u q ≤ 1) :
    CM.keysCount u (aset w e q) ≤ 1 := by
  rw [keysCount_aset]
  split_ifs <;> omega

/-- Scheduling a delta for the same user adds it to the queued net delta. -/
theorem qDelta_schedule_self (u : String) (d t : Int) (s : CM.CMState) :
    CM.qDelta u (CM.scheduleCreditUpdate u d t s) = CM.qDelta u s + d := by
  simp only [CM.qDelta, CM.scheduleCreditUpdate, alookup_aset_self]
  cases hq : alookup u s.creditUpdateQueue <;> simp [hq]

/-- Scheduling a delta for another user leaves the queued net delta alone. -/
theorem qDelta_schedule_ne {u w : String} (hne : ¬w = u) (d t : Int)
    (s : CM.CMState) :
    CM.qDelta u (CM.scheduleCreditUpdate w d t s) = CM.qDelta u s := by
  simp only [CM.qDelta, CM.scheduleCreditUpdate,
    alookup_aset_ne (fun h => hne h.symm)]

/-- What `getBalance` does: it never touches the queue or the store, never
changes the observable balance, and reports exactly that balance for the
looked-up user. -/
theorem cm_getBalance_spec (u w : String) (now : Int) (s : CM.CMState) :
    (CM.getBalance w now s).2.creditUpdateQueue = s.creditUpdateQueue ∧
    (CM.getBalance w now s).2.dbUsers = s.dbUsers ∧
    CM.cachedBal u (CM.getBalance w now s).2 = CM.cachedBal u s ∧
    (w = u → (CM.getBalance w now s).1 = CM.cachedBal u s) := by
  cases hc : alookup (CM.balanceKey w) s.creditWalletCache with
  | some c =>
      refine ⟨by simp [CM.getBalance, hc], by simp [CM.getBalance, hc],
        by simp [CM.getBalance, hc], ?_⟩
      intro hw
      subst hw
      simp [CM.getBalance, CM.cachedBal, hc]
  | none =>
      refine ⟨by simp [CM.getBalance, hc], by simp [CM.getBalance, hc], ?_, ?_⟩
      · by_cases hw : w = u
        · subst hw
          simp [CM.getBalance, CM.cachedBal, CM.dbBal, CM.loadBalanceFromDB, hc,
            alookup_aset_self]
        · have hne : CM.balanceKey u ≠ CM.balanceKey w :=
            fun h => hw (balanceKey_inj h).symm
          simp [CM.getBalance, CM.cachedBal, CM.dbBal, hc, alookup_aset_ne hne]
      · intro hw
        subst hw
        simp [CM.getBalance, CM.cachedBal, CM.dbBal, CM.loadBalanceFromDB, hc]

/-- `getBalance` preserves the synchronisation invariant. -/
theorem cm_getBalance_inv (u w : String) (now : Int) (s : CM.CMState)
    (hinv : CM.Inv u s) : CM.Inv u (CM.getBalance w now s).2 := by
  obtain ⟨hq, hdb, hcb, _⟩ := cm_getBalance_spec u w now s
  refine ⟨?_, ?_, ?_⟩
  · rw [hdb]
    exact hinv.1
  · rw [hq]
    exact hinv.2.1
  · have h1 : CM.qDelta u (CM.getBalance w now s).2 = CM.qDelta u s := by
      unfold CM.qDelta
      rw [hq]
    have h2 : CM.dbBal u (CM.getBalance w now s).2 = CM.dbBal u s := by
      unfold CM.dbBal
      rw [hdb]
    rw [h1, h2, hcb]
    exact hinv.2.2

/-- The common mutation of `chargeCredits`/`addCredits` — overwrite the cache
entry with balance `bal + δ` and queue the delta `δ` — preserves the
synchronisation invariant provided `bal` is the observable balance of the
account when it is the invariant's account. -/
theorem cm_mut_preserves_inv (u w : String) (now bal δ : Int) (s : CM.CMState)
    (hinv : CM.Inv u s) (hbal : w = u → bal = CM.cachedBal u s) :
    CM.Inv u (CM.scheduleCreditUpdate w δ now (cmWrite w (bal + δ) now s)) := by
  refine ⟨hinv.1, ?_, ?_⟩
  · simp only [CM.scheduleCreditUpdate]
    exact keysCount_aset_le _ _ hinv.2.1
  · by_cases hw : w = u
    · subst hw
      rw [qDelta_schedule_self]
      have hcb : CM.cachedBal w
          (CM.scheduleCreditUpdate w δ now (cmWrite w (bal + δ) now s)) = bal + δ := by
        simp [CM.cachedBal, CM.scheduleCreditUpdate, cmWrite, alookup_aset_self]
      rw [hcb]
      have hdb : CM.dbBal w
          (CM.scheduleCreditUpdate w δ now (cmWrite w (bal + δ) now s)) =
            CM.dbBal w s := rfl
      rw [hdb, hbal rfl]
      have hq2 : CM.qDelta w (cmWrite w (CM.cachedBal w s + δ) now s) =
          CM.qDelta w s := rfl
      rw [hq2]
      have := hinv.2.2
      omega
    · rw [qDelta_schedule_ne hw]
      have hne : CM.balanceKey u ≠ CM.balanceKey w :=
        fun h => hw (balanceKey_inj h).symm
      have hcb : CM.cachedBal u
          (CM.scheduleCreditUpdate w δ now (cmWrite w (bal + δ) now s)) =
            CM.cachedBal u s := by
        simp [CM.cachedBal, CM.scheduleCreditUpdate, cmWrite, CM.dbBal,
          alookup_aset_ne hne]
      rw [hcb]
      exact hinv.2.2

/-- `CreditManager.chargeCredits` preserves the synchronisation invariant of
every account (the charged one and all others). -/
theorem cm_chargeCredits_inv (u w : String) (a now : Int) (s : CM.CMState)
    (hinv : CM.Inv u s) : CM.Inv u (CM.chargeCredits w a now s).2 := by
  unfold CM.chargeCredits
  by_cases ha : a ≤ 0
  · simp only [if_pos ha]
    exact hinv
  · simp only [if_neg ha]
    cases hg : CM.getBalance w now s with
    | mk bal s1 =>
      have hinv1 : CM.Inv u s1 := by
        have hh := cm_getBalance_inv u w now s hinv
        rw [hg] at hh
        exact hh
      have hbal : w = u → bal = CM.cachedBal u s1 := by
        intro hw
        have hspec := cm_getBalance_spec u w now s
        rw [hg] at hspec
        have h1 : CM.cachedBal u s1 = CM.cachedBal u s := hspec.2.2.1
        have h2 : bal = CM.cachedBal u s := hspec.2.2.2 hw
        rw [h1, h2]
      dsimp only
      by_cases hb : bal < a
      · rw [if_pos hb]
        exact hinv1
      · rw [if_neg hb]
        exact cm_mut_preserves_inv u w now bal (-a) s1 hinv1 hbal

/-- `CreditManager.addCredits` preserves the synchronisation invariant of
every account. -/
theorem cm_addCredits_inv (u w : String) (a now : Int) (s : CM.CMState)
    (hinv : CM.Inv u s) : CM.Inv u (CM.addCredits w a now s).2 := by
  unfold CM.addCredits
  by_cases ha : a ≤ 0
  · simp only [if_pos ha]
    exact hinv
  · simp only [if_neg ha]
    cases hg : CM.getBalance w now s with
    | mk bal s1 =>
      have hinv1 : CM.Inv u s1 := by
        have hh := cm_getBalance_inv u w now s hinv
        rw [hg] at hh
        exact hh
      have hbal : w = u → bal = CM.cachedBal u s1 := by
        intro hw
        have hspec := cm_getBalance_spec u w now s
        rw [hg] at hspec
        have h1 : CM.cachedBal u s1 = CM.cachedBal u s := hspec.2.2.1
        have h2 : bal = CM.cachedBal u s := hspec.2.2.2 hw
        rw [h1, h2]
      dsimp only
      exact cm_mut_preserves_inv u w now bal a s1 hinv1 hbal

/-- Applying another user's queued update does not affect a given user's row,
cache entry or the queue. -/
theorem applyQueuedUpdate_frame {u : String} (now : Int) (s : CM.CMState)
    (upd : String × CM.QueueEntry) (hne : ¬upd.1 = u) :
    alookup u (CM.applyQueuedUpdate now s upd).dbUsers = alookup u s.dbUsers ∧
    alookup (CM.balanceKey u) (CM.applyQueuedUpdate now s upd).creditWalletCache =
      alookup (CM.balanceKey u) s.creditWalletCache ∧
    (CM.applyQueuedUpdate now s upd).creditUpdateQueue = s.creditUpdateQueue := by
  obtain ⟨x, e⟩ := upd
  have hkne : CM.balanceKey u ≠ CM.balanceKey x :=
    fun h => hne ((balanceKey_inj h).symm)
  have hune : u ≠ x := fun h => hne h.symm
  refine ⟨?_, ?_, rfl⟩
  · simp only [CM.applyQueuedUpdate]
    cases hdb : alookup x s.dbUsers with
    | none => rfl
    | some b => simp [alookup_aupdate_ne hune]
  · simp only [CM.applyQueuedUpdate]
    cases hdb : alookup x s.dbUsers with
    | none =>
        cases hcc : alookup (CM.balanceKey x) s.creditWalletCache with
        | none => rfl
        | some c => simp [alookup_aset_ne hkne]
    | some b =>
        cases hcc : alookup (CM.balanceKey x) s.creditWalletCache with
        | none => rfl
        | some c => simp [alookup_aset_ne hkne]

/-- Applying the user's own queued update adds the delta to the row and marks
the cached entry (if any) clean. -/
theorem applyQueuedUpdate_self (u : String) (e : CM.QueueEntry) (now : Int)
    (s : CM.CMState) (b : Int) (hb : alookup u s.dbUsers = some b) :
    alookup u (CM.applyQueuedUpdate now s (u, e)).dbUsers =
      some (b + e.deltaAmount) ∧
    (alookup (CM.balanceKey u) s.creditWalletCache = none →
      alookup (CM.balanceKey u)
        (CM.applyQueuedUpdate now s (u, e)).creditWalletCache = none) ∧
    (∀ c, alookup (CM.balanceKey u) s.creditWalletCache = some c →
      alookup (CM.balanceKey u)
          (CM.applyQueuedUpdate now s (u, e)).creditWalletCache =
        some { c with dirty := false, lastSync := now }) ∧
    (CM.applyQueuedUpdate now s (u, e)).creditUpdateQueue = s.creditUpdateQueue := by
  refine ⟨?_, ?_, ?_, rfl⟩
  · simp only [CM.applyQueuedUpdate, hb]
    exact alookup_aupdate_self hb _
  · intro hcc
    simp only [CM.applyQueuedUpdate, hb, hcc]
  · intro c hcc
    simp only [CM.applyQueuedUpdate, hb, hcc]
    simp [alookup_aset_self]

/-- A fold of queued updates containing no entry for the user leaves the
user's row and cache entry unchanged (and never touches the queue). -/
theorem foldApply_frame (u : String) (now : Int) :
    ∀ (updates : List (String × CM.QueueEntry)) (s : CM.CMState),
      CM.keysCount u updates = 0 →
      alookup u (updates.foldl (CM.applyQueuedUpdate now) s).dbUsers =
        alookup u s.dbUsers ∧
      alookup (CM.balanceKey u)
          (updates.foldl (CM.applyQueuedUpdate now) s).creditWalletCache =
        alookup (CM.balanceKey u) s.creditWalletCache ∧
      (updates.foldl (CM.applyQueuedUpdate now) s).creditUpdateQueue =
        s.creditUpdateQueue := by
  intro updates
  induction updates with
  | nil => exact fun s _ => ⟨rfl, rfl, rfl⟩
  | cons p rest ih =>
      intro s h0
      have hne : ¬p.1 = u := by
        intro hp
        simp [CM.keysCount, List.count_cons, hp] at h0
      have hrest : CM.keysCount u rest = 0 := by
        simp only [CM.keysCount, List.map_cons, List.count_cons] at h0
        simp only [CM.keysCount]
        omega
      obtain ⟨h1, h2, h3⟩ := applyQueuedUpdate_frame now s p hne
      obtain ⟨h4, h5, h6⟩ := ih (CM.applyQueuedUpdate now s p) hrest
      exact ⟨h4.trans h1, h5.trans h2, h6.trans h3⟩

/-- A fold of queued updates whose single entry for the user carries delta
`e.deltaAmount` adds exactly that delta to the user's row and marks the
cached entry (if any) clean. -/
theorem foldApply_apply (u : String) (now : Int) :
    ∀ (updates : List (String × CM.QueueEntry)) (s : CM.CMState)
      (e : CM.QueueEntry) (b : Int),
      alookup u updates = some e → CM.keysCount u updates ≤ 1 →
      alookup u s.dbUsers = some b →
      alookup u (updates.foldl (CM.applyQueuedUpdate now) s).dbUsers =
        some (b + e.deltaAmount) ∧
      (alookup (CM.balanceKey u) s.creditWalletCache = none →
        alookup (CM.balanceKey u)
          (updates.foldl (CM.applyQueuedUpdate now) s).creditWalletCache = none) ∧
      (∀ c, alookup (CM.balanceKey u) s.creditWalletCache = some c →
        alookup (CM.balanceKey u)
            (updates.foldl (CM.applyQueuedUpdate now) s).creditWalletCache =
          some { c with dirty := false, lastSync := now }) := by
  intro updates
  induction updates with
  | nil =>
      intro s e b he
      simp [alookup] at he
  | cons p rest ih =>
      intro s e b he hcount hb
      obtain ⟨x, v⟩ := p
      by_cases hx : u = x
      · subst hx
        have hve : v = e := by
          simp only [alookup, if_pos rfl] at he
          exact Option.some.inj he
        subst hve
        have hrest0 : CM.keysCount u rest = 0 := by
          simp [CM.keysCount, List.count_cons] at hcount
          simp only [CM.keysCount]
          omega
        obtain ⟨h1, h2, h3, h4⟩ := applyQueuedUpdate_self u v now s b hb
        obtain ⟨h5, h6, h7⟩ :=
          foldApply_frame u now rest (CM.applyQueuedUpdate now s (u, v)) hrest0
        refine ⟨?_, ?_, ?_⟩
        · rw [List.foldl_cons]
          exact h5.trans h1
        · intro hcc
          rw [List.foldl_cons]
          exact h6.trans (h2 hcc)
        · intro c hcc
          rw [List.foldl_cons]
          exact h6.trans (h3 c hcc)
      · have hne : ¬x = u := fun h => hx h.symm
        have he' : alookup u rest = some e := by
          simpa [alookup, hx] using he
        have hcount' : CM.keysCount u rest ≤ 1 := by
          simp [CM.keysCount, List.count_cons] at hcount
          simp only [CM.keysCount]
          omega
        obtain ⟨f1, f2, f3⟩ := applyQueuedUpdate_frame now s (x, v) hne
        obtain ⟨g1, g2, g3⟩ :=
          ih (CM.applyQueuedUpdate now s (x, v)) e b he' hcount' (f1.trans hb)
        refine ⟨?_, ?_, ?_⟩
        · rw [List.foldl_cons]
          exact g1
        · intro hcc
          rw [List.foldl_cons]
          exact g2 (f2.trans hcc)
        · intro c hcc
          rw [List.foldl_cons]
          exact g3 c (f2.trans hcc)

/-- A fold of queued updates never touches the queue itself. -/
theorem foldApply_queue (now : Int) :
    ∀ (updates : List (String × CM.QueueEntry)) (s : CM.CMState),
      (updates.foldl (CM.applyQueuedUpdate now) s).creditUpdateQueue =
        s.creditUpdateQueue := by
  intro updates
  induction updates with
  | nil => intro s; rfl
  | cons p rest ih =>
      intro s
      rw [List.foldl_cons, ih]
      rfl

/-- One successful `processCreditUpdates` run on a state satisfying the
synchronisation invariant makes the persisted balance equal the cached
balance, empties the queue, clears the entry's dirty flag, and re-establishes
the invariant. -/
theorem cm_process_success (u : String) (now : Int) (s : CM.CMState)
    (e : CM.QueueEntry) (hinv : CM.Inv u s)
    (hq : alookup u s.creditUpdateQueue = some e) :
    ∃ s', CM.processCreditUpdates true now s = (Except.ok (), s') ∧
      CM.dbBal u s' = CM.cachedBal u s' ∧ CM.qDelta u s' = 0 ∧ CM.Inv u s' ∧
      (∀ c, alookup (CM.balanceKey u) s.creditWalletCache = some c →
        alookup (CM.balanceKey u) s'.creditWalletCache =
          some { c with dirty := false, lastSync := now }) := by
  obtain ⟨b, hb⟩ := Option.isSome_iff_exists.mp hinv.1
  have hcount := hinv.2.1
  have hsync := hinv.2.2
  have hdbb : CM.dbBal u s = b := by simp [CM.dbBal, hb]
  have hqd : CM.qDelta u s = e.deltaAmount := by simp [CM.qDelta, hq]
  have hempty : s.creditUpdateQueue.isEmpty = false := by
    cases hqq : s.creditUpdateQueue with
    | nil =>
        rw [hqq] at hq
        simp [alookup] at hq
    | cons a l => simp [hqq]
  have hrun : CM.processCreditUpdates true now s =
      (Except.ok (), s.creditUpdateQueue.foldl (CM.applyQueuedUpdate now)
        { s with creditUpdateQueue := [] }) := by
    simp [CM.processCreditUpdates, hempty]
  obtain ⟨p1, p2, p3⟩ := foldApply_apply u now s.creditUpdateQueue
    { s with creditUpdateQueue := [] } e b hq hcount hb
  refine ⟨_, hrun, ?_, ?_, ?_, ?_⟩
  · -- persisted equals cached
    have hdb' : CM.dbBal u (s.creditUpdateQueue.foldl (CM.applyQueuedUpdate now)
        { s with creditUpdateQueue := [] }) = b + e.deltaAmount := by
      simp [CM.dbBal, p1]
    rw [hdb']
    cases hcc : alookup (CM.balanceKey u) s.creditWalletCache with
    | none =>
        have hnone := p2 hcc
        simp only [CM.cachedBal, hnone, Option.map_none', Option.getD_none]
        simp only [CM.dbBal, p1, Option.getD_some]
    | some c =>
        have hsome := p3 c hcc
        have hcb : CM.cachedBal u s = c.balance := by
          simp [CM.cachedBal, hcc]
        rw [hcb, hdbb, hqd] at hsync
        simp only [CM.cachedBal, hsome, Option.map_some', Option.getD_some]
        omega
  · -- queue empty
    have hq' := foldApply_queue now s.creditUpdateQueue
      { s with creditUpdateQueue := [] }
    simp [CM.qDelta, hq', alookup]
  · -- invariant re-established
    refine ⟨?_, ?_, ?_⟩
    · simp [p1]
    · have hq' := foldApply_queue now s.creditUpdateQueue
        { s with creditUpdateQueue := [] }
      simp [CM.keysCount, hq']
    · have hq' := foldApply_queue now s.creditUpdateQueue
        { s with creditUpdateQueue := [] }
      have hqd' : CM.qDelta u (s.creditUpdateQueue.foldl (CM.applyQueuedUpdate now)
          { s with creditUpdateQueue := [] }) = 0 := by
        simp [CM.qDelta, hq', alookup]
      rw [hqd']
      have hdb' : CM.dbBal u (s.creditUpdateQueue.foldl (CM.applyQueuedUpdate now)
          { s with creditUpdateQueue := [] }) = b + e.deltaAmount := by
        simp [CM.dbBal, p1]
      cases hcc : alookup (CM.balanceKey u) s.creditWalletCache with
      | none =>
          have hnone := p2 hcc
          simp only [CM.cachedBal, hnone, Option.map_none', Option.getD_none]
          omega
      | some c =>
          have hsome := p3 c hcc
          have hcb : CM.cachedBal u s = c.balance := by
            simp [CM.cachedBal, hcc]
          rw [hcb, hdbb, hqd] at hsync
          simp only [CM.cachedBal, hsome, Option.map_some', Option.getD_some, hdb']
          omega
  · -- dirty flag cleared
    intro c hcc
    exact p3 c hcc

/-- Queued deltas accumulate additively. -/
theorem scheduleCreditUpdate_additive (w : String) (d1 d2 t t' : Int)
    (s : CM.CMState) :
    CM.scheduleCreditUpdate w d2 t (CM.scheduleCreditUpdate w d1 t' s) =
      CM.scheduleCreditUpdate w (d1 + d2) t s := by
  simp only [CM.scheduleCreditUpdate, alookup_aset_self]
  cases hq : alookup w s.creditUpdateQueue with
  | none => simp [hq, aset_aset, Int.add_assoc]
  | some q0 => simp [hq, aset_aset, Int.add_assoc]

/-- C10: `scheduleCreditUpdate` accumulates deltas additively (queuing `d1`
then `d2` equals queuing `d1 + d2` once), the queued net delta for a user
always equals the cached balance minus the last persisted balance (the
`Inv` invariant, which `chargeCredits` and `addCredits` preserve for every
account), and one successful `processCreditUpdates` run makes the persisted
balance equal the cached balance, empties the queue and clears the entry's
dirty flag. -/
theorem cm_delta_queue_sync (u : String) :
    (∀ (w : String) (d1 d2 t t' : Int) (s : CM.CMState),
      CM.scheduleCreditUpdate w d2 t (CM.scheduleCreditUpdate w d1 t' s) =
        CM.scheduleCreditUpdate w (d1 + d2) t s) ∧
    (∀ (s : CM.CMState), CM.Inv u s →
      CM.qDelta u s = CM.cachedBal u s - CM.dbBal u s) ∧
    (∀ (w : String) (a now : Int) (s : CM.CMState), CM.Inv u s →
      CM.Inv u (CM.chargeCredits w a now s).2) ∧
    (∀ (w : String) (a now : Int) (s : CM.CMState), CM.Inv u s →
      CM.Inv u (CM.addCredits w a now s).2) ∧
    (∀ (now : Int) (s : CM.CMState) (e : CM.QueueEntry), CM.Inv u s →
      alookup u s.creditUpdateQueue = some e →
      ∃ s', CM.processCreditUpdates true now s = (Except.ok (), s') ∧
        CM.dbBal u s' = CM.cachedBal u s' ∧ CM.qDelta u s' = 0 ∧ CM.Inv u s' ∧
        (∀ c, alookup (CM.balanceKey u) s.creditWalletCache = some c →
          alookup (CM.balanceKey u) s'.creditWalletCache =
            some { c with dirty := false, lastSync := now })) :=
  ⟨scheduleCreditUpdate_additive,
   fun _ hinv => hinv.2.2,
   fun w a now s hinv => cm_chargeCredits_inv u w a now s hinv,
   fun w a now s hinv => cm_addCredits_inv u w a now s hinv,
   fun now s e hinv hq => cm_process_success u now s e hinv hq⟩

/-- C10 witness: queuing 2 then 3 equals queuing 5; a charge of 30 against a
persisted 100 preserves the invariant; processing the queued -30 on the
matching state persists 70 = cached balance, empties the queue and clears the
dirty flag. -/
theorem cm_delta_queue_sync_witness :
    CM.scheduleCreditUpdate "u" 3 9
        (CM.scheduleCreditUpdate "u" 2 8 ⟨[], [], [("u", 100)]⟩) =
      CM.scheduleCreditUpdate "u" (2 + 3) 9 ⟨[], [], [("u", 100)]⟩ ∧
    CM.Inv "u" (CM.chargeCredits "u" 30 1 ⟨[], [], [("u", 100)]⟩).2 ∧
    (∃ s', CM.processCreditUpdates true 2
        ⟨[("balance_u", ⟨70, 1, true⟩)], [("u", ⟨-30, 1⟩)], [("u", 100)]⟩ =
        (Except.ok (), s') ∧
      CM.dbBal "u" s' = CM.cachedBal "u" s' ∧ CM.qDelta "u" s' = 0 ∧
      CM.Inv "u" s' ∧
      (∀ c, alookup (CM.balanceKey "u")
          (⟨[("balance_u", ⟨70, 1, true⟩)], [("u", ⟨-30, 1⟩)],
            [("u", 100)]⟩ : CM.CMState).creditWalletCache = some c →
        alookup (CM.balanceKey "u") s'.creditWalletCache =
          some { c with dirty := false, lastSync := 2 })) :=
  ⟨(cm_delta_queue_sync "u").1 "u" 2 3 9 8 ⟨[], [], [("u", 100)]⟩,
   (cm_delta_queue_sync "u").2.2.1 "u" 30 1 ⟨[], [], [("u", 100)]⟩ (by decide),
   (cm_delta_queue_sync "u").2.2.2.2 2
     ⟨[("balance_u", ⟨70, 1, true⟩)], [("u", ⟨-30, 1⟩)], [("u", 100)]⟩
     ⟨-30, 1⟩ (by decide) rfl⟩
